import Mathlib

/-!
Shallow embedding of the `pineventory` inventory-ledger core
(`src/app/db/db_manager.py` and `src/app/db/models.py`).

The database state is modelled as lists of rows (one list per table), plus
the serial-id counters, a logical clock (`NOW()`), and the scheduled-sync
queue.  Each `DatabaseManager` method becomes a pure function from a `DB`
state to a result paired with the successor state, translated statement by
statement from the SQL in the source.  Timestamps and all SQL integers are
modelled as `Int`.
-/

namespace Pineventory

/-- The `Subteam` enum of `models.py`. -/
inductive Subteam where
  | mechanical
  | electrical
  | efs
  | autonomy
  | operations
deriving DecidableEq, Repr

/-- A row of the `items` table (fields as in `models.py` `Item` /
the `INSERT INTO items` columns of `db_manager.py`). -/
structure ItemRow where
  id : Int
  guild_id : Int
  item_name : String
  quantity_total : Int
  quantity_available : Int
  location : String
  subteam : Subteam
  point_of_contact : Int
  purchase_order : String
  description : Option String
  created_at : Int
  updated_at : Int
deriving DecidableEq, Repr

/-- A row of the `checkouts` table. -/
structure CheckoutRow where
  id : Int
  item_id : Int
  guild_id : Int
  user_id : Int
  quantity : Int
  checked_out_at : Int
  expected_return_date : Option Int
  returned_at : Option Int
  notes : Option String
deriving DecidableEq, Repr

/-- A row of the `audit_log` table. -/
structure AuditRow where
  id : Int
  guild_id : Int
  user_id : Int
  action : String
  item_id : Option Int
  details : String
  created_at : Int
deriving DecidableEq, Repr

/-- A row of the global `users` table. -/
structure UserRow where
  user_id : Int
  username : String
  is_admin : Bool
  created_at : Int
deriving DecidableEq, Repr

/-- A row of the `guild_permissions` table (unique on `(guild_id, user_id)`). -/
structure PermRow where
  guild_id : Int
  user_id : Int
  is_admin : Bool
  updated_at : Int
deriving DecidableEq, Repr

/-- The store state: the five tables the ledger touches, the serial-id
counters, the logical clock (`NOW()`), whether a sheets client is
configured, and the queue of scheduled sync tasks (guild ids passed to
`trigger_sheets_sync`). -/
structure DB where
  items : List ItemRow
  checkouts : List CheckoutRow
  auditLog : List AuditRow
  users : List UserRow
  guildPermissions : List PermRow
  nextItemId : Int
  nextCheckoutId : Int
  nextAuditId : Int
  now : Int
  sheetsConfigured : Bool
  syncs : List Int
deriving DecidableEq, Repr

/-- `DatabaseManager.trigger_sheets_sync`: schedules a `full_sync` task when a
sheets client is configured, otherwise does nothing. -/
def trigger_sheets_sync (guild_id : Int) (db : DB) : DB :=
  if db.sheetsConfigured then { db with syncs := db.syncs ++ [guild_id] } else db

/-- `DatabaseManager.log_action`: `INSERT INTO audit_log (guild_id, user_id,
action, item_id, details)`. -/
def log_action (guild_id user_id : Int) (action : String) (item_id : Option Int)
    (details : String) (db : DB) : DB :=
  { db with
    auditLog := db.auditLog ++
      [{ id := db.nextAuditId, guild_id := guild_id, user_id := user_id,
         action := action, item_id := item_id, details := details,
         created_at := db.now }],
    nextAuditId := db.nextAuditId + 1 }

/-- `DatabaseManager.get_item`: `SELECT * from items WHERE id = $1 AND
guild_id = $2`. -/
def get_item (guild_id item_id : Int) (db : DB) : Option ItemRow :=
  db.items.find? (fun i => i.id == item_id && i.guild_id == guild_id)

/-- `CreateItemRequest` of `models.py` (pydantic-validated before it reaches
the ledger; `quantity` has `gt=0`). -/
structure CreateItemRequest where
  item_name : String
  quantity : Int
  location : String
  subteam : Subteam
  point_of_contact : Int
  purchase_order : String
  description : Option String
deriving DecidableEq, Repr

/-- `DatabaseManager.add_item`: inserts the item with
`quantity_total = quantity_available = request.quantity` (the `$3, $3`
placeholders), then logs `add_item` and schedules a sync.  Each statement
runs on an autocommit connection (no explicit transaction in the source). -/
def add_item (request : CreateItemRequest) (guild_id added_by : Int) (db : DB) :
    ItemRow × DB :=
  let item : ItemRow :=
    { id := db.nextItemId, guild_id := guild_id, item_name := request.item_name,
      quantity_total := request.quantity, quantity_available := request.quantity,
      location := request.location, subteam := request.subteam,
      point_of_contact := request.point_of_contact,
      purchase_order := request.purchase_order,
      description := request.description,
      created_at := db.now, updated_at := db.now }
  let db1 := { db with items := db.items ++ [item], nextItemId := db.nextItemId + 1 }
  let db2 := log_action guild_id added_by "add_item" (some item.id)
    ("Added " ++ toString request.quantity ++ "x " ++ request.item_name) db1
  (item, trigger_sheets_sync guild_id db2)

/-- `UpdateItemRequest` of `models.py`: every field optional; `model_dump`
with `exclude_unset`/`exclude_none` keeps exactly the `some` fields. -/
structure UpdateItemRequest where
  item_name : Option String
  quantity_total : Option Int
  location : Option String
  subteam : Option Subteam
  point_of_contact : Option Int
  purchase_order : Option String
  description : Option String
deriving DecidableEq, Repr

/-- The empty partial request: `model_dump(exclude_unset, exclude_none)`
produces no updates. -/
def UpdateItemRequest.isEmpty (r : UpdateItemRequest) : Bool :=
  r.item_name.isNone && r.quantity_total.isNone && r.location.isNone &&
    r.subteam.isNone && r.point_of_contact.isNone && r.purchase_order.isNone &&
    r.description.isNone

/-- Effect of the generated `UPDATE items SET k = v, ...` clause on one row:
each present field overwrites the column, absent fields are untouched. -/
def applyUpdates (r : UpdateItemRequest) (i : ItemRow) : ItemRow :=
  { i with
    item_name := r.item_name.getD i.item_name,
    quantity_total := r.quantity_total.getD i.quantity_total,
    location := r.location.getD i.location,
    subteam := r.subteam.getD i.subteam,
    point_of_contact := r.point_of_contact.getD i.point_of_contact,
    purchase_order := r.purchase_order.getD i.purchase_order,
    description := (r.description.map some).getD i.description }

/-- Python enum value strings of `Subteam`. -/
def Subteam.str : Subteam → String
  | .mechanical => "mechanical"
  | .electrical => "electrical"
  | .efs => "efs"
  | .autonomy => "autonomy"
  | .operations => "operations"

/-- The `"Updated: k=v, ..."` summary built in `update_item` from the present
fields, in `model_dump` (field-declaration) order. -/
def updateChanges (r : UpdateItemRequest) : String :=
  String.intercalate ", "
    ((r.item_name.map (fun v => "item_name=" ++ v)).toList ++
     (r.quantity_total.map (fun v => "quantity_total=" ++ toString v)).toList ++
     (r.location.map (fun v => "location=" ++ v)).toList ++
     (r.subteam.map (fun v => "subteam=" ++ v.str)).toList ++
     (r.point_of_contact.map (fun v => "point_of_contact=" ++ toString v)).toList ++
     (r.purchase_order.map (fun v => "purchase_order=" ++ v)).toList ++
     (r.description.map (fun v => "description=" ++ v)).toList)

/-- The quantity validators `Item.from_record` runs on the row returned by
`UPDATE ... RETURNING *`: the `Field(ge=0)` bounds on both quantities and
`validate_quantity_available` (`quantity_available ≤ quantity_total`).
String-shape validators are elided: no write path here can break them. -/
def itemRecordOk (i : ItemRow) : Bool :=
  decide (0 ≤ i.quantity_total) && decide (0 ≤ i.quantity_available) &&
    decide (i.quantity_available ≤ i.quantity_total)

/-- `DatabaseManager.update_item`.  Empty request: returns `get_item` with no
mutation.  Otherwise runs `UPDATE items SET ... WHERE id = $1 AND guild_id =
$2 RETURNING *` (autocommit) and, when a row matched, builds
`Item.from_record(row)` — which raises a pydantic `ValidationError`
(modelled as `.error`) when the committed row violates the quantity
validators, in which case no audit entry is written and no sync scheduled;
on a valid row it logs `edit_item` and schedules a sync. -/
def update_item (guild_id item_id : Int) (request : UpdateItemRequest)
    (updated_by : Int) (db : DB) : Except String (Option ItemRow) × DB :=
  if request.isEmpty then (.ok (get_item guild_id item_id db), db)
  else
    match db.items.find? (fun i => i.id == item_id && i.guild_id == guild_id) with
    | none => (.ok none, db)
    | some i =>
      let i' := applyUpdates request i
      let db1 := { db with
        items := db.items.map (fun r =>
          if r.id == item_id && r.guild_id == guild_id then applyUpdates request r
          else r) }
      if itemRecordOk i' then
        let db2 := log_action guild_id updated_by "edit_item" (some item_id)
          ("Updated: " ++ updateChanges request) db1
        (.ok (some i'), trigger_sheets_sync guild_id db2)
      else (.error "Available quantity cannot exceed total quantity", db1)

/-- `DatabaseManager.delete_item`: looks the item up guild-scoped, logs the
`delete_item` audit entry first ("to avoid violating fkey constraint"),
then runs `DELETE from items WHERE id = $1` and schedules a sync.  There is
no active-checkout check in this method. -/
def delete_item (guild_id item_id deleted_by : Int) (db : DB) : Bool × DB :=
  match get_item guild_id item_id db with
  | none => (false, db)
  | some item =>
    let db1 := log_action guild_id deleted_by "delete_item" (some item_id)
      ("Deleted " ++ item.item_name) db
    let db2 := { db1 with items := db1.items.filter (fun r => !(r.id == item_id)) }
    (true, trigger_sheets_sync guild_id db2)

/-- `CheckoutRequest` of `models.py` (`quantity` has `gt=0`). -/
structure CheckoutRequest where
  item_id : Int
  quantity : Int
  expected_return_date : Option Int
  notes : Option String
deriving DecidableEq, Repr

/-- The `validate_return_date` pydantic validator of `CheckoutRequest`:
`if v and v < datetime.now(): raise`.  Returns `true` when construction
succeeds, `false` when a `ValidationError` is raised.  Pure in the request
and the validation instant; runs before any store access. -/
def CheckoutRequest.validate_return_date (v : Option Int) (now : Int) : Bool :=
  match v with
  | none => true
  | some d => !(d < now)

/-- The body of `checkout_item`'s `conn.transaction()` block after the
availability guard passed: insert the checkout row and decrement the item
(`UPDATE items ... WHERE id = $1`, no guild filter in the source). -/
def checkoutTxn (request : CheckoutRequest) (guild_id user_id : Int) (db : DB) :
    CheckoutRow × DB :=
  let c : CheckoutRow :=
    { id := db.nextCheckoutId, item_id := request.item_id, guild_id := guild_id,
      user_id := user_id, quantity := request.quantity,
      checked_out_at := db.now,
      expected_return_date := request.expected_return_date,
      returned_at := none, notes := request.notes }
  let db1 := { db with
    checkouts := db.checkouts ++ [c], nextCheckoutId := db.nextCheckoutId + 1 }
  let db2 := { db1 with
    items := db1.items.map (fun r =>
      if r.id == request.item_id then
        { r with quantity_available := r.quantity_available - request.quantity }
      else r) }
  (c, db2)

/-- `DatabaseManager.checkout_item`: inside one transaction, `SELECT ... FROM
items WHERE id = $1 AND guild_id = $2 FOR UPDATE`; aborts with `None` if the
item is absent or `quantity_available < request.quantity`; otherwise inserts
the checkout and decrements the item.  After the transaction commits it logs
`checkout` and schedules a sync. -/
def checkout_item (request : CheckoutRequest) (guild_id user_id : Int) (db : DB) :
    Option CheckoutRow × DB :=
  match db.items.find? (fun i => i.id == request.item_id && i.guild_id == guild_id) with
  | none => (none, db)
  | some i =>
    if i.quantity_available < request.quantity then (none, db)
    else
      let (c, db2) := checkoutTxn request guild_id user_id db
      let db3 := log_action guild_id user_id "checkout" (some request.item_id)
        ("Checked out " ++ toString request.quantity ++ "x " ++ i.item_name) db2
      (some c, trigger_sheets_sync guild_id db3)

/-- The committed store states an external observer can see during one
`checkout_item` call: the initial state; on success additionally the state
at the `conn.transaction()` commit (checkout inserted and item decremented,
audit entry not yet written — `log_action` runs on a separate autocommit
statement after the block) and the final state. -/
def checkout_item_commits (request : CheckoutRequest) (guild_id user_id : Int)
    (db : DB) : List DB :=
  match db.items.find? (fun i => i.id == request.item_id && i.guild_id == guild_id) with
  | none => [db]
  | some i =>
    if i.quantity_available < request.quantity then [db]
    else
      let (_, db2) := checkoutTxn request guild_id user_id db
      let db3 := log_action guild_id user_id "checkout" (some request.item_id)
        ("Checked out " ++ toString request.quantity ++ "x " ++ i.item_name) db2
      [db, db2, trigger_sheets_sync guild_id db3]

/-- `DatabaseManager.return_item`: inside one transaction, `SELECT c.*,
i.item_name FROM checkouts c JOIN items i ON c.item_id = i.id WHERE c.id =
$1 AND c.guild_id = $2 AND c.returned_at IS NULL FOR UPDATE` (the join makes
the lookup fail when no item row carries the checkout's `item_id`); if no
row, returns `false`.  Otherwise sets `returned_at = NOW()` on the checkout
and runs `UPDATE items SET quantity_available = quantity_available + $3
WHERE id = $1 AND guild_id = $2`; after commit logs `return` and schedules a
sync. -/
def return_item (checkout_id guild_id returned_by : Int) (db : DB) : Bool × DB :=
  match db.checkouts.find? (fun c =>
      c.id == checkout_id && c.guild_id == guild_id && c.returned_at == none &&
        db.items.any (fun i => i.id == c.item_id)) with
  | none => (false, db)
  | some c =>
    let iname := ((db.items.find? (fun i => i.id == c.item_id)).map
      (fun i => i.item_name)).getD ""
    let db1 := { db with
      checkouts := db.checkouts.map (fun (x : CheckoutRow) =>
        if x.id == checkout_id && x.guild_id == guild_id then
          { x with returned_at := some db.now }
        else x) }
    let db2 := { db1 with
      items := db1.items.map (fun (i : ItemRow) =>
        if i.id == c.item_id && i.guild_id == guild_id then
          { i with quantity_available := i.quantity_available + c.quantity }
        else i) }
    let db3 := log_action guild_id returned_by "return" (some c.item_id)
      ("Returned " ++ toString c.quantity ++ "x " ++ iname) db2
    (true, trigger_sheets_sync guild_id db3)

/-- `DatabaseManager.ensure_user_exists`: `INSERT ... ON CONFLICT (user_id)
DO UPDATE SET username = $2`. -/
def ensure_user_exists (user_id : Int) (username : String) (db : DB) : DB :=
  if db.users.any (fun v => v.user_id == user_id) then
    { db with users := db.users.map (fun v =>
        if v.user_id == user_id then { v with username := username } else v) }
  else
    { db with users := db.users ++
        [{ user_id := user_id, username := username, is_admin := false,
           created_at := db.now }] }

/-- `DatabaseManager.ensure_guild_member`: upserts the global user, then
`INSERT INTO guild_permissions ... ON CONFLICT (guild_id, user_id) DO
NOTHING`. -/
def ensure_guild_member (guild_id user_id : Int) (username : String) (db : DB) : DB :=
  let db1 := ensure_user_exists user_id username db
  if db1.guildPermissions.any (fun p => p.guild_id == guild_id && p.user_id == user_id) then
    db1
  else
    { db1 with guildPermissions := db1.guildPermissions ++
        [{ guild_id := guild_id, user_id := user_id, is_admin := false,
           updated_at := db1.now }] }

/-- `DatabaseManager.set_admin`: `INSERT ... ON CONFLICT (guild_id, user_id)
DO UPDATE SET is_admin = $3, updated_at = NOW()`. -/
def set_admin (guild_id user_id : Int) (value : Bool) (db : DB) : DB :=
  if db.guildPermissions.any (fun p => p.guild_id == guild_id && p.user_id == user_id) then
    { db with guildPermissions := db.guildPermissions.map (fun p =>
        if p.guild_id == guild_id && p.user_id == user_id then
          { p with is_admin := value, updated_at := db.now }
        else p) }
  else
    { db with guildPermissions := db.guildPermissions ++
        [{ guild_id := guild_id, user_id := user_id, is_admin := value,
           updated_at := db.now }] }

/-- `InventoryStats` of `models.py`. -/
structure InventoryStats where
  total_items : Nat
  total_quantity : Int
  checked_out_quantity : Int
  active_checkouts : Nat
  unique_subteams : Nat
deriving DecidableEq, Repr

/-- The `utilization_rate` computed field: `0.0` when `total_quantity == 0`,
else `(checked_out_quantity / total_quantity) * 100` (exact rational in
place of Python float division). -/
def InventoryStats.utilization_rate (s : InventoryStats) : ℚ :=
  if s.total_quantity = 0 then 0
  else ((s.checked_out_quantity : ℚ) / (s.total_quantity : ℚ)) * 100

/-- `DatabaseManager.get_stats`: the aggregate query over `items` and
`checkouts`.  Note the source query has no `guild_id` parameter or filter
anywhere — it aggregates the whole store. -/
def get_stats (db : DB) : InventoryStats :=
  { total_items := ((db.items.map (fun i => i.id)).dedup).length,
    total_quantity := (db.items.map (fun i => i.quantity_total)).sum,
    checked_out_quantity :=
      (db.items.map (fun i => i.quantity_total - i.quantity_available)).sum,
    active_checkouts := (db.checkouts.filter (fun c => c.returned_at == none)).length,
    unique_subteams := ((db.items.map (fun i => i.subteam)).dedup).length }

/-- Case-insensitive substring match: the `item_name ILIKE '%search%'`
filter (an empty pattern, which Python truthiness never forwards, matches
everything, as `'%%'` would). -/
def ilike (hay pat : String) : Bool :=
  pat.isEmpty || decide (((hay.toLower).splitOn (pat.toLower)).length > 1)

/-- `DatabaseManager.search_items`: `SELECT * FROM items WHERE guild_id = $1`
plus the optional `ILIKE`/`subteam`/`location` filters (each appended only
for a truthy argument), `ORDER BY item_name`. -/
def search_items (guild_id : Int) (search : Option String)
    (subteam : Option Subteam) (location : Option String) (db : DB) :
    List ItemRow :=
  (db.items.filter (fun i => i.guild_id == guild_id
      && (match search with | none => true | some s => ilike i.item_name s)
      && (match subteam with | none => true | some st => i.subteam == st)
      && (match location with
          | none => true
          | some l => l.isEmpty || i.location == l))).mergeSort
    (fun a b => a.item_name ≤ b.item_name)

/-- `DatabaseManager.get_active_checkouts`: unreturned checkouts of the
guild, optionally restricted to one (nonzero) user id, `ORDER BY
checked_out_at DESC`. -/
def get_active_checkouts (guild_id : Int) (user_id : Option Int) (db : DB) :
    List CheckoutRow :=
  match user_id with
  | some uid =>
    (db.checkouts.filter (fun c => c.guild_id == guild_id && c.user_id == uid
        && c.returned_at == none)).mergeSort
      (fun a b => b.checked_out_at ≤ a.checked_out_at)
  | none =>
    (db.checkouts.filter (fun c => c.guild_id == guild_id
        && c.returned_at == none)).mergeSort
      (fun a b => b.checked_out_at ≤ a.checked_out_at)

/-- `DatabaseManager.get_item_checkouts`: the checkouts of one item in the
guild, optionally only the active ones, `ORDER BY checked_out_at DESC`. -/
def get_item_checkouts (guild_id item_id : Int) (active_only : Bool) (db : DB) :
    List CheckoutRow :=
  if active_only then
    (db.checkouts.filter (fun c => c.item_id == item_id && c.guild_id == guild_id
        && c.returned_at == none)).mergeSort
      (fun a b => b.checked_out_at ≤ a.checked_out_at)
  else
    (db.checkouts.filter (fun c => c.item_id == item_id
        && c.guild_id == guild_id)).mergeSort
      (fun a b => b.checked_out_at ≤ a.checked_out_at)

/-- `DatabaseManager.get_audit_log`: `SELECT * FROM audit_log WHERE guild_id
= $1 ORDER BY created_at DESC LIMIT $2`. -/
def get_audit_log (guild_id : Int) (limit : Nat) (db : DB) : List AuditRow :=
  ((db.auditLog.filter (fun e => e.guild_id == guild_id)).mergeSort
    (fun a b => b.created_at ≤ a.created_at)).take limit

/-- `DatabaseManager.get_user_permissions`: `SELECT * from guild_permissions
where user_id = $1 AND guild_id = $2`. -/
def get_user_permissions (guild_id user_id : Int) (db : DB) : Option PermRow :=
  db.guildPermissions.find? (fun p => p.user_id == user_id && p.guild_id == guild_id)

/-- Username of a global user id (the `JOIN users` lookup). -/
def usernameOf (db : DB) (uid : Int) : String :=
  ((db.users.find? (fun v => v.user_id == uid)).map (fun v => v.username)).getD ""

/-- `DatabaseManager.get_guild_admins`: the guild's admin permission rows
inner-joined to `users`, `ORDER BY u.username`. -/
def get_guild_admins (guild_id : Int) (db : DB) : List PermRow :=
  (db.guildPermissions.filter (fun p => p.guild_id == guild_id && p.is_admin
      && db.users.any (fun v => v.user_id == p.user_id))).mergeSort
    (fun a b => usernameOf db a.user_id ≤ usernameOf db b.user_id)

/-- The item rows of every guild other than `g`, in store order. -/
def itemsOutside (g : Int) (db : DB) : List ItemRow :=
  db.items.filter (fun i => !(i.guild_id == g))

/-- The checkout rows of every guild other than `g`, in store order. -/
def checkoutsOutside (g : Int) (db : DB) : List CheckoutRow :=
  db.checkouts.filter (fun c => !(c.guild_id == g))

/-- The audit entries of every guild other than `g`, in store order. -/
def auditOutside (g : Int) (db : DB) : List AuditRow :=
  db.auditLog.filter (fun e => !(e.guild_id == g))

/-- The permission rows of every guild other than `g`, in store order. -/
def permsOutside (g : Int) (db : DB) : List PermRow :=
  db.guildPermissions.filter (fun p => !(p.guild_id == g))

/-- An operation invoked for guild `g` left every other guild's slice of the
store — items, checkouts, audit entries and permissions — exactly as it
was. -/
def OutsideUntouched (g : Int) (db db' : DB) : Prop :=
  itemsOutside g db' = itemsOutside g db
  ∧ checkoutsOutside g db' = checkoutsOutside g db
  ∧ auditOutside g db' = auditOutside g db
  ∧ permsOutside g db' = permsOutside g db

/-! ## Projection lemmas for the audit/sync wrappers -/

@[simp] theorem trigger_sheets_sync_items (g : Int) (db : DB) :
    (trigger_sheets_sync g db).items = db.items := by
  unfold trigger_sheets_sync; split <;> rfl

@[simp] theorem trigger_sheets_sync_checkouts (g : Int) (db : DB) :
    (trigger_sheets_sync g db).checkouts = db.checkouts := by
  unfold trigger_sheets_sync; split <;> rfl

@[simp] theorem trigger_sheets_sync_auditLog (g : Int) (db : DB) :
    (trigger_sheets_sync g db).auditLog = db.auditLog := by
  unfold trigger_sheets_sync; split <;> rfl

@[simp] theorem trigger_sheets_sync_users (g : Int) (db : DB) :
    (trigger_sheets_sync g db).users = db.users := by
  unfold trigger_sheets_sync; split <;> rfl

@[simp] theorem trigger_sheets_sync_guildPermissions (g : Int) (db : DB) :
    (trigger_sheets_sync g db).guildPermissions = db.guildPermissions := by
  unfold trigger_sheets_sync; split <;> rfl

@[simp] theorem trigger_sheets_sync_nextItemId (g : Int) (db : DB) :
    (trigger_sheets_sync g db).nextItemId = db.nextItemId := by
  unfold trigger_sheets_sync; split <;> rfl

@[simp] theorem trigger_sheets_sync_nextCheckoutId (g : Int) (db : DB) :
    (trigger_sheets_sync g db).nextCheckoutId = db.nextCheckoutId := by
  unfold trigger_sheets_sync; split <;> rfl

@[simp] theorem trigger_sheets_sync_now (g : Int) (db : DB) :
    (trigger_sheets_sync g db).now = db.now := by
  unfold trigger_sheets_sync; split <;> rfl

@[simp] theorem log_action_items (g u : Int) (a : String) (ii : Option Int)
    (d : String) (db : DB) : (log_action g u a ii d db).items = db.items := rfl

@[simp] theorem log_action_checkouts (g u : Int) (a : String) (ii : Option Int)
    (d : String) (db : DB) : (log_action g u a ii d db).checkouts = db.checkouts := rfl

@[simp] theorem log_action_users (g u : Int) (a : String) (ii : Option Int)
    (d : String) (db : DB) : (log_action g u a ii d db).users = db.users := rfl

@[simp] theorem log_action_guildPermissions (g u : Int) (a : String) (ii : Option Int)
    (d : String) (db : DB) :
    (log_action g u a ii d db).guildPermissions = db.guildPermissions := rfl

@[simp] theorem log_action_nextItemId (g u : Int) (a : String) (ii : Option Int)
    (d : String) (db : DB) : (log_action g u a ii d db).nextItemId = db.nextItemId := rfl

@[simp] theorem log_action_nextCheckoutId (g u : Int) (a : String) (ii : Option Int)
    (d : String) (db : DB) :
    (log_action g u a ii d db).nextCheckoutId = db.nextCheckoutId := rfl

@[simp] theorem log_action_now (g u : Int) (a : String) (ii : Option Int)
    (d : String) (db : DB) : (log_action g u a ii d db).now = db.now := rfl

@[simp] theorem log_action_auditLog (g u : Int) (a : String) (ii : Option Int)
    (d : String) (db : DB) :
    (log_action g u a ii d db).auditLog = db.auditLog ++
      [{ id := db.nextAuditId, guild_id := g, user_id := u, action := a,
         item_id := ii, details := d, created_at := db.now }] := rfl

@[simp] theorem ensure_user_exists_guildPermissions (u : Int) (n : String) (db : DB) :
    (ensure_user_exists u n db).guildPermissions = db.guildPermissions := by
  unfold ensure_user_exists; split <;> rfl

@[simp] theorem ensure_user_exists_items (u : Int) (n : String) (db : DB) :
    (ensure_user_exists u n db).items = db.items := by
  unfold ensure_user_exists; split <;> rfl

@[simp] theorem ensure_user_exists_checkouts (u : Int) (n : String) (db : DB) :
    (ensure_user_exists u n db).checkouts = db.checkouts := by
  unfold ensure_user_exists; split <;> rfl

@[simp] theorem ensure_user_exists_auditLog (u : Int) (n : String) (db : DB) :
    (ensure_user_exists u n db).auditLog = db.auditLog := by
  unfold ensure_user_exists; split <;> rfl

/-! ## Concrete fixtures -/

/-- An empty store with a sheets client configured. -/
def db0 : DB :=
  { items := [], checkouts := [], auditLog := [], users := [],
    guildPermissions := [], nextItemId := 1, nextCheckoutId := 1,
    nextAuditId := 1, now := 0, sheetsConfigured := true, syncs := [] }

/-- The `add item(name="Widget", qty=5, guild=1)` request of the spec
scenario. -/
def reqW : CreateItemRequest :=
  { item_name := "Widget", quantity := 5, location := "Lab",
    subteam := .mechanical, point_of_contact := 12,
    purchase_order := "PO 1", description := none }

/-- `Checkout(item, qty=3)` request of the spec scenario. -/
def co3 : CheckoutRequest :=
  { item_id := 1, quantity := 3, expected_return_date := none, notes := none }

/-- Store after adding the Widget to guild 1. -/
def dbA : DB := (add_item reqW 1 12 db0).2

/-- The Widget row as returned by `add_item`. -/
def itemW : ItemRow := (add_item reqW 1 12 db0).1

/-- A partial update request with no set fields. -/
def emptyUpd : UpdateItemRequest :=
  { item_name := none, quantity_total := none, location := none, subteam := none,
    point_of_contact := none, purchase_order := none, description := none }

/-! ## C8: empty partial update is a no-op read -/

/-- C8: for an item present in the guild, `update_item` with a partial
request that has no set fields returns the current item and leaves the
store untouched: no row mutation, no audit entry, no sync scheduled. -/
theorem update_item_empty_request_noop (db : DB) (g iid u : Int)
    (r : UpdateItemRequest) (hr : r.isEmpty = true) (i : ItemRow)
    (hi : get_item g iid db = some i) :
    update_item g iid r u db = (.ok (some i), db) := by
  unfold update_item
  simp [hr, hi]

/-- Witness for C8 on the Widget store. -/
theorem update_item_empty_request_noop_witness :
    update_item 1 1 emptyUpd 12 dbA = (.ok (some itemW), dbA) :=
  update_item_empty_request_noop dbA 1 1 12 emptyUpd (by decide) itemW (by decide)

/-! ## C9: return-date validation boundary -/

/-- C9 counterexample: at a date exactly equal to the validation instant the
date is not strictly in the future, yet `validate_return_date` accepts the
request (the source raises only when `v < datetime.now()`). -/
theorem validate_return_date_boundary_cex :
    CheckoutRequest.validate_return_date (some 100) 100 = true
    ∧ ¬ ((100 : Int) > 100) := by
  exact ⟨rfl, by decide⟩

/-- C9 amended: constructing a `CheckoutRequest` with an
`expected_return_date` raises a `ValidationError` if and only if the date is
strictly before the validation instant (a date equal to the instant, or
later, is accepted; an absent date is always accepted); the validator is a
pure function of the request and the instant, evaluated at construction
before any store operation. -/
theorem validate_return_date_amended : ∀ d now : Int,
    (CheckoutRequest.validate_return_date (some d) now = false ↔ d < now)
    ∧ CheckoutRequest.validate_return_date none now = true := by
  intro d now
  refine ⟨?_, rfl⟩
  unfold CheckoutRequest.validate_return_date
  simp

/-! ## C10: ensure_guild_member never touches an existing permission row -/

/-- The `ON CONFLICT (guild_id, user_id) DO NOTHING` clause: when the row
exists, the permissions table is returned unchanged. -/
theorem ensure_guild_member_perms_of_mem (db : DB) (g u : Int) (name : String)
    (h : ∃ p ∈ db.guildPermissions, p.guild_id = g ∧ p.user_id = u) :
    (ensure_guild_member g u name db).guildPermissions = db.guildPermissions := by
  obtain ⟨p, hp, hg, hu⟩ := h
  simp only [ensure_guild_member]
  split
  · simp
  · next hfalse =>
    exfalso
    apply hfalse
    rw [ensure_user_exists_guildPermissions]
    exact List.any_eq_true.mpr ⟨p, hp, by simp [hg, hu]⟩

/-- After `set_admin`, the `(guild_id, user_id)` row exists. -/
theorem set_admin_row_exists (db : DB) (g u : Int) (b : Bool) :
    ∃ p ∈ (set_admin g u b db).guildPermissions, p.guild_id = g ∧ p.user_id = u := by
  simp only [set_admin]
  split
  · next hany =>
    obtain ⟨p, hp, hpred⟩ := List.any_eq_true.mp hany
    simp only [Bool.and_eq_true, beq_iff_eq] at hpred
    refine ⟨{ guild_id := g, user_id := u, is_admin := b, updated_at := db.now },
      ?_, rfl, rfl⟩
    refine List.mem_map.mpr ⟨p, hp, ?_⟩
    rw [if_pos (by simp [hpred.1, hpred.2])]
    simp [hpred.1, hpred.2]
  · exact ⟨_, List.mem_append.mpr (Or.inr (List.mem_singleton.mpr rfl)), rfl, rfl⟩

/-- C10: calling `ensure_guild_member` when a `GuildPermission` row for
`(guild_id, user_id)` already exists never changes the permissions table (so
an `is_admin` flag set via `set_admin` is never reset), and touches no
items, checkouts or audit entries; only the global user row is refreshed. -/
theorem ensure_guild_member_idempotent_on_permission (db : DB) (g u : Int)
    (name : String)
    (h : ∃ p ∈ db.guildPermissions, p.guild_id = g ∧ p.user_id = u) :
    (ensure_guild_member g u name db).guildPermissions = db.guildPermissions
    ∧ (ensure_guild_member g u name db).items = db.items
    ∧ (ensure_guild_member g u name db).checkouts = db.checkouts
    ∧ (ensure_guild_member g u name db).auditLog = db.auditLog
    ∧ (ensure_guild_member g u name db).users = (ensure_user_exists u name db).users
    ∧ ∀ db' : DB, (ensure_guild_member g u name (set_admin g u true db')).guildPermissions
        = (set_admin g u true db').guildPermissions := by
  have hfields : ∀ d : DB, (ensure_guild_member g u name d).items = d.items
      ∧ (ensure_guild_member g u name d).checkouts = d.checkouts
      ∧ (ensure_guild_member g u name d).auditLog = d.auditLog
      ∧ (ensure_guild_member g u name d).users = (ensure_user_exists u name d).users := by
    intro d
    simp only [ensure_guild_member]
    split <;> simp
  refine ⟨ensure_guild_member_perms_of_mem db g u name h,
    (hfields db).1, (hfields db).2.1, (hfields db).2.2.1, (hfields db).2.2.2, ?_⟩
  intro db'
  exact ensure_guild_member_perms_of_mem _ g u name (set_admin_row_exists db' g u true)

/-- A permission row marking user 100 as admin of guild 1. -/
def permP : PermRow :=
  { guild_id := 1, user_id := 100, is_admin := true, updated_at := 0 }

/-- A store whose guild 1 already has user 100 as admin. -/
def dbP : DB := { db0 with guildPermissions := [permP] }

/-- Witness for C10: re-ensuring membership of an existing admin leaves the
permission row (and the admin flag) untouched. -/
theorem ensure_guild_member_idempotent_on_permission_witness :
    (ensure_guild_member 1 100 "alice" dbP).guildPermissions = dbP.guildPermissions :=
  (ensure_guild_member_idempotent_on_permission dbP 1 100 "alice" (by decide)).1

/-! ## C7: get_stats aggregates the whole store, not one guild -/

/-- A fully available item in guild 1. -/
def itemG1 : ItemRow :=
  { id := 1, guild_id := 1, item_name := "A", quantity_total := 5,
    quantity_available := 5, location := "L", subteam := .mechanical,
    point_of_contact := 12, purchase_order := "PO", description := none,
    created_at := 0, updated_at := 0 }

/-- An item in guild 2 with 2 of 3 units checked out. -/
def itemG2 : ItemRow :=
  { id := 2, guild_id := 2, item_name := "B", quantity_total := 3,
    quantity_available := 1, location := "L", subteam := .electrical,
    point_of_contact := 12, purchase_order := "PO", description := none,
    created_at := 0, updated_at := 0 }

/-- A store holding one item in guild 1 and one in guild 2. -/
def dbStats : DB := { db0 with items := [itemG1, itemG2], nextItemId := 3 }

/-- C7 counterexample: `get_stats` takes no guild parameter and aggregates
across guilds — on a store where guild 1 owns one fully-available item and
guild 2 owns another with 2 units out, it reports 2 total items and 2
checked-out units, though guild 1 alone has 1 item and 0 checked out. -/
theorem get_stats_not_guild_scoped_cex :
    (get_stats dbStats).total_items = 2
    ∧ (dbStats.items.filter (fun i => i.guild_id == 1)).length = 1
    ∧ (get_stats dbStats).checked_out_quantity = 2
    ∧ ((dbStats.items.filter (fun i => i.guild_id == 1)).map
        (fun i => i.quantity_total - i.quantity_available)).sum = 0 := by
  decide

/-- C7 amended: `get_stats` takes no guild parameter and aggregates over all
items and checkouts in the store; on an empty store it returns
`total_items = 0` and `utilization_rate = 0.0` with no division-by-zero,
and `utilization_rate = 100 * checked_out_quantity / total_quantity`
whenever `total_quantity ≠ 0`. -/
theorem get_stats_amended :
    (get_stats db0 = ⟨0, 0, 0, 0, 0⟩ ∧ (get_stats db0).utilization_rate = 0)
    ∧ ∀ s : InventoryStats, s.total_quantity ≠ 0 →
        s.utilization_rate = 100 * (s.checked_out_quantity : ℚ) / (s.total_quantity : ℚ) := by
  refine ⟨⟨by decide, by decide⟩, ?_⟩
  intro s hs
  unfold InventoryStats.utilization_rate
  rw [if_neg hs]
  ring

/-- Witness for the amended C7 on concrete stats (8 units, 2 out). -/
theorem get_stats_amended_witness :
    InventoryStats.utilization_rate ⟨2, 8, 2, 1, 2⟩ =
      100 * ((2 : Int) : ℚ) / ((8 : Int) : ℚ) :=
  get_stats_amended.2 ⟨2, 8, 2, 1, 2⟩ (by decide)

/-! ## C3: delete_item does not check active checkouts -/

/-- An item of guild 1 with 3 of 5 units out on loan. -/
def itemD : ItemRow :=
  { id := 1, guild_id := 1, item_name := "Drill", quantity_total := 5,
    quantity_available := 2, location := "Lab", subteam := .mechanical,
    point_of_contact := 12, purchase_order := "PO 9", description := none,
    created_at := 0, updated_at := 0 }

/-- The active (unreturned) checkout of 3 Drill units. -/
def coD : CheckoutRow :=
  { id := 1, item_id := 1, guild_id := 1, user_id := 12, quantity := 3,
    checked_out_at := 0, expected_return_date := none, returned_at := none,
    notes := none }

/-- A store with the Drill and its active checkout. -/
def dbD : DB :=
  { db0 with
      items := [itemD]
      checkouts := [coD]
      nextItemId := 2
      nextCheckoutId := 2 }

/-- C3 counterexample: on an item with one active checkout,
`DatabaseManager.delete_item` does not refuse — it returns `true`, removes
the item row, and writes a `delete_item` audit entry, orphaning the active
checkout. -/
theorem delete_item_ignores_active_checkouts_cex :
    (dbD.checkouts.filter (fun c => c.item_id == 1 && c.returned_at == none)).length = 1
    ∧ (delete_item 1 1 99 dbD).1 = true
    ∧ (delete_item 1 1 99 dbD).2.items = []
    ∧ (delete_item 1 1 99 dbD).2.checkouts = [coD]
    ∧ (delete_item 1 1 99 dbD).2.auditLog.map (fun a => a.action) = ["delete_item"] := by
  decide

/-- C3 amended: `DatabaseManager.delete_item` performs no active-checkout
check: whenever the item exists in the guild it returns `true`, removes the
item row while leaving every checkout row (active ones included) in place,
and appends the `delete_item` audit entry (written before the physical
delete); refusing deletion while active checkouts exist is left to the
command front-end, which queries the item's active checkouts and aborts
before invoking the ledger operation. -/
theorem delete_item_amended (db : DB) (g iid u : Int) (item : ItemRow)
    (h : get_item g iid db = some item) :
    (delete_item g iid u db).1 = true
    ∧ (delete_item g iid u db).2.checkouts = db.checkouts
    ∧ (delete_item g iid u db).2.items = db.items.filter (fun r => !(r.id == iid))
    ∧ (delete_item g iid u db).2.auditLog = db.auditLog ++
        [{ id := db.nextAuditId, guild_id := g, user_id := u,
           action := "delete_item", item_id := some iid,
           details := "Deleted " ++ item.item_name, created_at := db.now }] := by
  unfold delete_item
  rw [h]
  exact ⟨rfl, by simp, by simp, by simp⟩

/-- Witness for the amended C3 on the Drill store (active checkout present,
deletion still succeeds). -/
theorem delete_item_amended_witness :
    (delete_item 1 1 99 dbD).1 = true :=
  (delete_item_amended dbD 1 1 99 itemD (by decide)).1

/-! ## List helpers -/

theorem find?_congr {α : Type} (l : List α) (p q : α → Bool)
    (h : ∀ x ∈ l, p x = q x) : l.find? p = l.find? q := by
  induction l with
  | nil => rfl
  | cons a t ih =>
    simp only [List.find?]
    rw [h a (List.mem_cons_self a t)]
    cases hq : q a
    · exact ih (fun x hx => h x (List.mem_cons_of_mem a hx))
    · rfl

/-- Shape of the store after a successful `checkout_item`: the checkout row
appended and the decrement applied to the rows carrying the item id. -/
theorem checkout_item_success_snd (db : DB) (req : CheckoutRequest) (g u : Int)
    (i0 : ItemRow)
    (hf : db.items.find? (fun i => i.id == req.item_id && i.guild_id == g) = some i0)
    (hq : ¬ i0.quantity_available < req.quantity) :
    (checkout_item req g u db).2.items = db.items.map (fun r =>
        if r.id == req.item_id then
          { r with quantity_available := r.quantity_available - req.quantity }
        else r)
    ∧ (checkout_item req g u db).2.checkouts = db.checkouts ++
        [{ id := db.nextCheckoutId, item_id := req.item_id, guild_id := g,
           user_id := u, quantity := req.quantity, checked_out_at := db.now,
           expected_return_date := req.expected_return_date,
           returned_at := none, notes := req.notes }]
    ∧ (checkout_item req g u db).1 = some
        { id := db.nextCheckoutId, item_id := req.item_id, guild_id := g,
          user_id := u, quantity := req.quantity, checked_out_at := db.now,
          expected_return_date := req.expected_return_date,
          returned_at := none, notes := req.notes } := by
  unfold checkout_item
  simp only [hf]
  rw [if_neg hq]
  exact ⟨by simp [checkoutTxn], by simp [checkoutTxn], by simp [checkoutTxn]⟩

/-! ## C1: checkout aborts cleanly on missing/insufficient stock and
otherwise inserts one checkout and decrements availability -/

/-- C1: `checkout_item` behaviour.  (1) If no item row of the guild carries
the requested id with `quantity_available ≥ request.quantity` (absent item
or insufficient stock), the call returns `null` and the whole store is
unchanged — no checkout row, no quantity change, no audit entry, no sync
scheduled.  (2) If the guild-scoped lookup finds the item and stock
suffices, exactly one checkout row carrying the request's quantity is
appended and the item's `quantity_available` drops by that quantity.
(3) The spec scenario: add Widget (qty 5, guild 1) → available 5 of 5;
checkout 3 → available 2; checkout 3 again → returns null with the store
unchanged; returning the first checkout → available 5. -/
theorem checkout_item_spec :
    (∀ (db : DB) (req : CheckoutRequest) (g u : Int),
      (∀ i ∈ db.items, i.id = req.item_id → i.guild_id = g →
        i.quantity_available < req.quantity) →
      checkout_item req g u db = (none, db))
    ∧ (∀ (db : DB) (req : CheckoutRequest) (g u : Int) (i0 : ItemRow),
      db.items.find? (fun i => i.id == req.item_id && i.guild_id == g) = some i0 →
      req.quantity ≤ i0.quantity_available →
      ∃ c : CheckoutRow,
        (checkout_item req g u db).1 = some c
        ∧ c.quantity = req.quantity ∧ c.item_id = req.item_id
        ∧ c.guild_id = g ∧ c.user_id = u ∧ c.returned_at = none
        ∧ (checkout_item req g u db).2.checkouts = db.checkouts ++ [c]
        ∧ get_item g req.item_id (checkout_item req g u db).2 =
            some { i0 with quantity_available := i0.quantity_available - req.quantity })
    ∧ (((add_item reqW 1 12 db0).1.quantity_available = 5
        ∧ (add_item reqW 1 12 db0).1.quantity_total = 5)
      ∧ ((checkout_item co3 1 12 dbA).1.isSome = true
        ∧ (checkout_item co3 1 12 dbA).2.items.map (fun i => i.quantity_available) = [2])
      ∧ (checkout_item co3 1 12 (checkout_item co3 1 12 dbA).2 =
          (none, (checkout_item co3 1 12 dbA).2))
      ∧ ((return_item 1 1 12 (checkout_item co3 1 12 dbA).2).1 = true
        ∧ (return_item 1 1 12 (checkout_item co3 1 12 dbA).2).2.items.map
            (fun i => i.quantity_available) = [5])) := by
  refine ⟨?_, ?_, by decide⟩
  · intro db req g u h
    unfold checkout_item
    rcases hf : db.items.find? (fun i => i.id == req.item_id && i.guild_id == g)
      with _ | i0
    · rw [hf]
    · simp only [hf]
      have hmem := List.mem_of_find?_eq_some hf
      have hp := List.find?_some hf
      simp only [Bool.and_eq_true, beq_iff_eq] at hp
      rw [if_pos (h i0 hmem hp.1 hp.2)]
  · intro db req g u i0 hf hq
    have hp := List.find?_some hf
    simp only [Bool.and_eq_true, beq_iff_eq] at hp
    obtain ⟨hitems, hcheckouts, hfst⟩ :=
      checkout_item_success_snd db req g u i0 hf (not_lt.mpr hq)
    refine ⟨_, hfst, rfl, rfl, rfl, rfl, rfl, hcheckouts, ?_⟩
    unfold get_item
    rw [hitems, List.find?_map]
    rw [find?_congr db.items _ (fun i => i.id == req.item_id && i.guild_id == g)
      (fun x _ => by by_cases hx : x.id = req.item_id <;> simp [hx])]
    rw [hf]
    simp [hp.1]

/-- Witness for C1: checking out 3 Widgets from the guild-1 store succeeds
with the quantities the claim demands. -/
theorem checkout_item_spec_witness :
    ∃ c : CheckoutRow,
      (checkout_item co3 1 12 dbA).1 = some c
      ∧ c.quantity = co3.quantity ∧ c.item_id = co3.item_id
      ∧ c.guild_id = 1 ∧ c.user_id = 12 ∧ c.returned_at = none
      ∧ (checkout_item co3 1 12 dbA).2.checkouts = dbA.checkouts ++ [c]
      ∧ get_item 1 co3.item_id (checkout_item co3 1 12 dbA).2 =
          some { itemW with quantity_available := itemW.quantity_available - co3.quantity } :=
  checkout_item_spec.2.1 dbA co3 1 12 itemW (by decide) (by decide)

/-! ## C4: audit entries are appended after the mutation commits, not inside
the same transaction -/

/-- C4 counterexample: in a successful `checkout_item` run there is an
observable committed state (the `conn.transaction()` commit point, before
`log_action` executes on its own autocommit statement) in which the checkout
row exists and the item is decremented but no `checkout` audit entry is
present. -/
theorem checkout_audit_commit_gap_cex :
    ∃ s ∈ checkout_item_commits co3 1 12 dbA,
      s.checkouts.length = 1
      ∧ s.items.map (fun i => i.quantity_available) = [2]
      ∧ (s.auditLog.filter (fun a => a.action == "checkout")).length = 0 := by
  decide

/-- C4 amended: for `checkout_item` the two store mutations — inserting the
checkout row and decrementing the item — are atomic (a single transaction:
no committed state shows one without the other, and a failed guard commits
nothing), but the audit append is not part of that transaction: it runs as a
separate statement after commit, so the committed-state trace of a
successful call is `[pre, mutated-without-audit, mutated-with-audit]`, the
final state carrying exactly one new `checkout` audit entry. -/
theorem checkout_mutation_atomic_audit_after :
    (∀ (db : DB) (req : CheckoutRequest) (g u : Int),
      (∀ i ∈ db.items, i.id = req.item_id → i.guild_id = g →
        i.quantity_available < req.quantity) →
      checkout_item_commits req g u db = [db])
    ∧ (∀ (db : DB) (req : CheckoutRequest) (g u : Int) (i0 : ItemRow),
      db.items.find? (fun i => i.id == req.item_id && i.guild_id == g) = some i0 →
      req.quantity ≤ i0.quantity_available →
      ∃ (dbMid dbFin : DB) (c : CheckoutRow),
        checkout_item_commits req g u db = [db, dbMid, dbFin]
        ∧ dbMid.checkouts = db.checkouts ++ [c]
        ∧ dbMid.items = db.items.map (fun r =>
            if r.id == req.item_id then
              { r with quantity_available := r.quantity_available - req.quantity }
            else r)
        ∧ dbMid.auditLog = db.auditLog
        ∧ dbFin.checkouts = dbMid.checkouts
        ∧ dbFin.items = dbMid.items
        ∧ (∃ e : AuditRow, dbFin.auditLog = db.auditLog ++ [e]
            ∧ e.action = "checkout" ∧ e.guild_id = g ∧ e.user_id = u
            ∧ e.item_id = some req.item_id)
        ∧ (checkout_item req g u db).2 = dbFin
        ∧ ∀ s ∈ checkout_item_commits req g u db,
            (s.checkouts = db.checkouts ∧ s.items = db.items)
            ∨ (s.checkouts = db.checkouts ++ [c]
               ∧ s.items = db.items.map (fun r =>
                  if r.id == req.item_id then
                    { r with quantity_available := r.quantity_available - req.quantity }
                  else r))) := by
  constructor
  · intro db req g u h
    unfold checkout_item_commits
    rcases hf : db.items.find? (fun i => i.id == req.item_id && i.guild_id == g)
      with _ | i0
    · rw [hf]
    · simp only [hf]
      have hmem := List.mem_of_find?_eq_some hf
      have hp := List.find?_some hf
      simp only [Bool.and_eq_true, beq_iff_eq] at hp
      rw [if_pos (h i0 hmem hp.1 hp.2)]
  · intro db req g u i0 hf hq
    have hcommits : checkout_item_commits req g u db =
        [db, (checkoutTxn req g u db).2,
          trigger_sheets_sync g (log_action g u "checkout" (some req.item_id)
            ("Checked out " ++ toString req.quantity ++ "x " ++ i0.item_name)
            (checkoutTxn req g u db).2)] := by
      unfold checkout_item_commits
      simp only [hf]
      rw [if_neg (not_lt.mpr hq)]
    have hfinal : (checkout_item req g u db).2 =
        trigger_sheets_sync g (log_action g u "checkout" (some req.item_id)
          ("Checked out " ++ toString req.quantity ++ "x " ++ i0.item_name)
          (checkoutTxn req g u db).2) := by
      unfold checkout_item
      simp only [hf]
      rw [if_neg (not_lt.mpr hq)]
    refine ⟨_, _,
      { id := db.nextCheckoutId, item_id := req.item_id, guild_id := g,
        user_id := u, quantity := req.quantity, checked_out_at := db.now,
        expected_return_date := req.expected_return_date, returned_at := none,
        notes := req.notes },
      hcommits, by simp [checkoutTxn], by simp [checkoutTxn],
      by simp [checkoutTxn], by simp, by simp,
      ⟨{ id := db.nextAuditId, guild_id := g, user_id := u, action := "checkout",
         item_id := some req.item_id,
         details := "Checked out " ++ toString req.quantity ++ "x " ++ i0.item_name,
         created_at := db.now },
        by simp [checkoutTxn], rfl, rfl, rfl, rfl⟩, hfinal, ?_⟩
    intro s hs
    rw [hcommits] at hs
    simp only [List.mem_cons, List.not_mem_nil, or_false] at hs
    rcases hs with hs | hs | hs
    · subst hs; exact Or.inl ⟨rfl, rfl⟩
    · subst hs; exact Or.inr ⟨by simp [checkoutTxn], by simp [checkoutTxn]⟩
    · subst hs; exact Or.inr ⟨by simp [checkoutTxn], by simp [checkoutTxn]⟩

/-- Witness for the amended C4 on the Widget store. -/
theorem checkout_mutation_atomic_audit_after_witness :
    ∃ (dbMid dbFin : DB) (c : CheckoutRow),
      checkout_item_commits co3 1 12 dbA = [dbA, dbMid, dbFin]
      ∧ dbMid.checkouts = dbA.checkouts ++ [c]
      ∧ dbMid.items = dbA.items.map (fun r =>
          if r.id == co3.item_id then
            { r with quantity_available := r.quantity_available - co3.quantity }
          else r)
      ∧ dbMid.auditLog = dbA.auditLog
      ∧ dbFin.checkouts = dbMid.checkouts
      ∧ dbFin.items = dbMid.items
      ∧ (∃ e : AuditRow, dbFin.auditLog = dbA.auditLog ++ [e]
          ∧ e.action = "checkout" ∧ e.guild_id = 1 ∧ e.user_id = 12
          ∧ e.item_id = some co3.item_id)
      ∧ (checkout_item co3 1 12 dbA).2 = dbFin
      ∧ ∀ s ∈ checkout_item_commits co3 1 12 dbA,
          (s.checkouts = dbA.checkouts ∧ s.items = dbA.items)
          ∨ (s.checkouts = dbA.checkouts ++ [c]
             ∧ s.items = dbA.items.map (fun r =>
                if r.id == co3.item_id then
                  { r with quantity_available := r.quantity_available - co3.quantity }
                else r)) :=
  checkout_mutation_atomic_audit_after.2 dbA co3 1 12 itemW (by decide) (by decide)

/-! ## C5: return_item matches on (id, guild, unreturned) joined to a
surviving item row -/

/-- An active checkout whose parent item row no longer exists (the state
`delete_item` leaves behind when deleting an item with active checkouts). -/
def coO : CheckoutRow :=
  { id := 7, item_id := 42, guild_id := 1, user_id := 12, quantity := 2,
    checked_out_at := 0, expected_return_date := none, returned_at := none,
    notes := none }

/-- A store holding only the orphaned checkout. -/
def dbO : DB := { db0 with checkouts := [coO], nextCheckoutId := 8 }

/-- C5 counterexample: a checkout row matching `(id = checkout_id, guild_id,
returned_at IS NULL)` exists, yet `return_item` returns `false` — the
source query joins `checkouts` to `items` on `item_id`, and the parent item
row is gone — so the claim's "otherwise" branch (set `returned_at`, return
true) does not fire. -/
theorem return_item_orphan_checkout_cex :
    (∃ c ∈ dbO.checkouts, c.id = 7 ∧ c.guild_id = 1 ∧ c.returned_at = none)
    ∧ return_item 7 1 99 dbO = (false, dbO) := by
  decide

/-- Shape of the store after a successful `return_item`: the matched
checkout closed, the guild-scoped increment applied, the audit entry
appended. -/
theorem return_item_success_snd (db : DB) (cid g u : Int) (c : CheckoutRow)
    (hc : db.checkouts.find? (fun x => x.id == cid && x.guild_id == g &&
      x.returned_at == none && db.items.any (fun i => i.id == x.item_id)) = some c) :
    (return_item cid g u db).1 = true
    ∧ (return_item cid g u db).2.checkouts = db.checkouts.map (fun x =>
        if x.id == cid && x.guild_id == g then { x with returned_at := some db.now }
        else x)
    ∧ (return_item cid g u db).2.items = db.items.map (fun i =>
        if i.id == c.item_id && i.guild_id == g then
          { i with quantity_available := i.quantity_available + c.quantity }
        else i)
    ∧ (return_item cid g u db).2.auditLog = db.auditLog ++
        [{ id := db.nextAuditId, guild_id := g, user_id := u, action := "return",
           item_id := some c.item_id,
           details := "Returned " ++ toString c.quantity ++ "x " ++
             (((db.items.find? (fun i => i.id == c.item_id)).map
               (fun i => i.item_name)).getD ""),
           created_at := db.now }] := by
  unfold return_item
  simp only [hc]
  refine ⟨by simp, by simp, by simp, by simp⟩

/-- C5 amended: `return_item` matches the checkout on `(id = checkout_id,
guild_id, returned_at IS NULL)` **joined to a still-existing item row with
the checkout's `item_id`**.  (1) If no checkout satisfies all of that — not
found, wrong guild, already returned, or parent item deleted — it returns
`false` with no side effects.  (2) Otherwise it returns `true`, sets the
matched checkout's `returned_at` to now while every other checkout row is
untouched (under the checkout primary key), increments the parent item's
`quantity_available` by exactly the checkout's quantity, and appends a
`return` audit entry. -/
theorem return_item_spec_amended :
    (∀ (db : DB) (cid g u : Int),
      (∀ c ∈ db.checkouts, ¬(c.id = cid ∧ c.guild_id = g ∧ c.returned_at = none
        ∧ ∃ i ∈ db.items, i.id = c.item_id)) →
      return_item cid g u db = (false, db))
    ∧ (∀ (db : DB) (cid g u : Int) (c : CheckoutRow),
      db.checkouts.find? (fun x => x.id == cid && x.guild_id == g &&
        x.returned_at == none && db.items.any (fun i => i.id == x.item_id)) = some c →
      (db.checkouts.map (fun x => x.id)).Nodup →
      (return_item cid g u db).1 = true
      ∧ c.id = cid ∧ c.guild_id = g ∧ c.returned_at = none
      ∧ { c with returned_at := some db.now } ∈ (return_item cid g u db).2.checkouts
      ∧ (∀ x ∈ db.checkouts, x ≠ c → x ∈ (return_item cid g u db).2.checkouts)
      ∧ (∀ i0 : ItemRow, get_item g c.item_id db = some i0 →
          get_item g c.item_id (return_item cid g u db).2 =
            some { i0 with quantity_available := i0.quantity_available + c.quantity })
      ∧ (∃ e : AuditRow, (return_item cid g u db).2.auditLog = db.auditLog ++ [e]
          ∧ e.action = "return" ∧ e.guild_id = g ∧ e.user_id = u
          ∧ e.item_id = some c.item_id)) := by
  constructor
  · intro db cid g u h
    unfold return_item
    have hf : db.checkouts.find? (fun x => x.id == cid && x.guild_id == g &&
        x.returned_at == none && db.items.any (fun i => i.id == x.item_id)) = none := by
      refine List.find?_eq_none.mpr (fun x hx => ?_)
      intro hpred
      apply h x hx
      simp only [Bool.and_eq_true, beq_iff_eq, List.any_eq_true] at hpred
      obtain ⟨⟨⟨h1, h2⟩, h3⟩, i, hi, hii⟩ := hpred
      exact ⟨h1, h2, h3, i, hi, hii⟩
    rw [hf]
  · intro db cid g u c hc hnodup
    have hp := List.find?_some hc
    have hmem := List.mem_of_find?_eq_some hc
    simp only [Bool.and_eq_true, beq_iff_eq] at hp
    obtain ⟨⟨⟨h1, h2⟩, h3⟩, _⟩ := hp
    obtain ⟨hfst, hck, hit, haud⟩ := return_item_success_snd db cid g u c hc
    refine ⟨hfst, h1, h2, h3, ?_, ?_, ?_, ?_⟩
    · rw [hck]
      have himg : (if c.id == cid && c.guild_id == g then
          { c with returned_at := some db.now } else c) =
          { c with returned_at := some db.now } := by
        simp [h1, h2]
      have hmm := List.mem_map_of_mem (fun x =>
        if x.id == cid && x.guild_id == g then { x with returned_at := some db.now }
        else x) hmem
      simpa only [himg] using hmm
    · intro x hx hne
      rw [hck]
      have himg : (if x.id == cid && x.guild_id == g then
          { x with returned_at := some db.now } else x) = x := by
        rw [if_neg]
        intro hcond
        simp only [Bool.and_eq_true, beq_iff_eq] at hcond
        exact hne (List.inj_on_of_nodup_map hnodup hx hmem (by rw [hcond.1, h1]))
      have hmm := List.mem_map_of_mem (fun y =>
        if y.id == cid && y.guild_id == g then { y with returned_at := some db.now }
        else y) hx
      simpa only [himg] using hmm
    · intro i0 hi0
      have hpi := List.find?_some hi0
      simp only [Bool.and_eq_true, beq_iff_eq] at hpi
      unfold get_item at hi0 ⊢
      rw [hit, List.find?_map]
      rw [find?_congr db.items _ (fun i => i.id == c.item_id && i.guild_id == g)
        (fun x _ => by
          by_cases hx : (x.id == c.item_id && x.guild_id == g) = true <;>
            simp only [Bool.and_eq_true, beq_iff_eq] at hx <;> simp [hx])]
      rw [hi0]
      simp [hpi.1, hpi.2]
    · exact ⟨_, haud, rfl, rfl, rfl, rfl⟩

/-- The checkout row created by the scenario checkout on the Widget store. -/
def coB : CheckoutRow :=
  { id := 1, item_id := 1, guild_id := 1, user_id := 12, quantity := 3,
    checked_out_at := 0, expected_return_date := none, returned_at := none,
    notes := none }

/-- Witness for the amended C5: returning the scenario checkout succeeds. -/
theorem return_item_spec_amended_witness :
    (return_item 1 1 99 (checkout_item co3 1 12 dbA).2).1 = true :=
  (return_item_spec_amended.2 (checkout_item co3 1 12 dbA).2 1 1 99 coB
    (by decide) (by decide)).1

/-! ## C2: the quantity invariant and the update_item hole -/

/-- A partial update lowering `quantity_total` to 2 and touching nothing
else. -/
def updT2 : UpdateItemRequest :=
  { item_name := none, quantity_total := some 2, location := none,
    subteam := none, point_of_contact := none, purchase_order := none,
    description := none }

/-- C2 counterexample: `update_item` applies a `quantity_total` change with
no cross-check against `quantity_available`: lowering the Widget's total
from 5 to 2 commits a store row with `quantity_available = 5 >
quantity_total = 2` (the pydantic read-validator then raises — after the
UPDATE has already been applied — so no audit entry is written either). -/
theorem update_item_breaks_quantity_invariant_cex :
    (∃ i ∈ (update_item 1 1 updT2 12 dbA).2.items,
      i.quantity_total < i.quantity_available)
    ∧ (update_item 1 1 updT2 12 dbA).2.items.map
        (fun i => (i.quantity_total, i.quantity_available)) = [(2, 5)]
    ∧ (update_item 1 1 updT2 12 dbA).1 =
        .error "Available quantity cannot exceed total quantity"
    ∧ (update_item 1 1 updT2 12 dbA).2.auditLog = dbA.auditLog :=
  ⟨by decide, by decide, rfl, by decide⟩

/-- Total quantity of the active (unreturned) checkouts of item `iid` in a
checkout list. -/
def activeQtyL (l : List CheckoutRow) (iid : Int) : Int :=
  ((l.filter (fun c => c.item_id == iid && c.returned_at == none)).map
    (fun c => c.quantity)).sum

/-- Total quantity of the active checkouts of item `iid` in the store: the
conservation quantity of the spec (`quantity_total` minus it should be
`quantity_available`). -/
def activeQty (db : DB) (iid : Int) : Int := activeQtyL db.checkouts iid

/-- Well-formedness plus the conservation law: serial ids are fresh and
unique (the primary keys), checkout quantities are positive (the pydantic
`gt=0` bound), every checkout's guild matches its item's guild, and every
item's `quantity_available` equals `quantity_total` minus the active
checkout quantity on it, with `quantity_available ≥ 0`. -/
structure LedgerInv (db : DB) : Prop where
  items_fresh : ∀ i ∈ db.items, i.id < db.nextItemId
  checkouts_fresh : ∀ c ∈ db.checkouts, c.id < db.nextCheckoutId
  checkout_items_fresh : ∀ c ∈ db.checkouts, c.item_id < db.nextItemId
  items_nodup : (db.items.map (fun i => i.id)).Nodup
  checkouts_nodup : (db.checkouts.map (fun c => c.id)).Nodup
  checkout_pos : ∀ c ∈ db.checkouts, 0 < c.quantity
  checkout_guild : ∀ c ∈ db.checkouts, ∀ i ∈ db.items,
    i.id = c.item_id → i.guild_id = c.guild_id
  balance : ∀ i ∈ db.items, 0 ≤ i.quantity_available
    ∧ i.quantity_available + activeQty db i.id = i.quantity_total

theorem activeQtyL_nonneg (l : List CheckoutRow) (iid : Int)
    (hpos : ∀ c ∈ l, 0 < c.quantity) : 0 ≤ activeQtyL l iid := by
  refine List.sum_nonneg (fun x hx => ?_)
  obtain ⟨c, hcmem, rfl⟩ := List.mem_map.mp hx
  exact le_of_lt (hpos c (List.mem_of_mem_filter hcmem))

theorem activeQtyL_append (l₁ l₂ : List CheckoutRow) (iid : Int) :
    activeQtyL (l₁ ++ l₂) iid = activeQtyL l₁ iid + activeQtyL l₂ iid := by
  simp [activeQtyL, List.filter_append]

theorem activeQtyL_eq_zero (l : List CheckoutRow) (iid : Int)
    (h : ∀ c ∈ l, c.item_id ≠ iid) : activeQtyL l iid = 0 := by
  unfold activeQtyL
  rw [List.filter_eq_nil_iff.mpr (fun c hc => by simp [h c hc])]
  rfl

theorem activeQtyL_singleton (c : CheckoutRow) (iid : Int)
    (hact : c.returned_at = none) :
    activeQtyL [c] iid = if c.item_id = iid then c.quantity else 0 := by
  by_cases h : c.item_id = iid <;> simp [activeQtyL, hact, h]

theorem activeQtyL_cons (a : CheckoutRow) (t : List CheckoutRow) (iid : Int) :
    activeQtyL (a :: t) iid =
      (if a.item_id == iid && a.returned_at == none then a.quantity else 0)
      + activeQtyL t iid := by
  unfold activeQtyL
  rw [List.filter_cons]
  split <;> simp

theorem activeQtyL_return_map (l : List CheckoutRow) (cid g now : Int)
    (c : CheckoutRow) (hc : c ∈ l) (hcid : c.id = cid) (hcg : c.guild_id = g)
    (hact : c.returned_at = none)
    (hnodup : (l.map (fun x => x.id)).Nodup) (iid : Int) :
    activeQtyL (l.map (fun x =>
      if x.id == cid && x.guild_id == g then { x with returned_at := some now }
      else x)) iid
    = activeQtyL l iid - (if c.item_id = iid then c.quantity else 0) := by
  induction l with
  | nil => cases hc
  | cons a t ih =>
    simp only [List.map_cons, List.nodup_cons] at hnodup
    obtain ⟨ha, ht⟩ := hnodup
    rw [List.map_cons]
    rcases List.mem_cons.mp hc with rfl | hct
    · have hpa : (if c.id == cid && c.guild_id == g then
          { c with returned_at := some now } else c) =
          { c with returned_at := some now } := by
        simp [hcid, hcg]
      have htail : t.map (fun x =>
          if x.id == cid && x.guild_id == g then { x with returned_at := some now }
          else x) = t := by
        have hstep : ∀ x ∈ t, (if x.id == cid && x.guild_id == g then
            { x with returned_at := some now } else x) = x := by
          intro x hx
          rw [if_neg]
          simp only [Bool.and_eq_true, beq_iff_eq, not_and]
          intro hxid
          exfalso
          apply ha
          rw [hcid, ← hxid]
          exact List.mem_map_of_mem _ hx
        rw [List.map_congr_left hstep, List.map_id']
      rw [hpa, htail, activeQtyL_cons, activeQtyL_cons]
      by_cases hai : c.item_id = iid <;> simp [hai, hact]
    · have hane : (a.id == cid && a.guild_id == g) = false := by
        have haid : a.id ≠ cid := by
          intro h
          apply ha
          rw [h, ← hcid]
          exact List.mem_map_of_mem _ hct
        simp [haid]
      have hpa2 : (if a.id == cid && a.guild_id == g then
          { a with returned_at := some now } else a) = a := by
        simp [hane]
      rw [hpa2, activeQtyL_cons, activeQtyL_cons, ih hct ht]
      ring

theorem add_item_snd_components (req : CreateItemRequest) (g a : Int) (db : DB) :
    (add_item req g a db).2.items = db.items ++ [(add_item req g a db).1]
    ∧ (add_item req g a db).2.checkouts = db.checkouts
    ∧ (add_item req g a db).2.nextItemId = db.nextItemId + 1
    ∧ (add_item req g a db).2.nextCheckoutId = db.nextCheckoutId := by
  exact ⟨by simp [add_item], by simp [add_item], by simp [add_item],
    by simp [add_item]⟩

theorem checkout_item_success_ids (db : DB) (req : CheckoutRequest) (g u : Int)
    (i0 : ItemRow)
    (hf : db.items.find? (fun i => i.id == req.item_id && i.guild_id == g) = some i0)
    (hq : ¬ i0.quantity_available < req.quantity) :
    (checkout_item req g u db).2.nextItemId = db.nextItemId
    ∧ (checkout_item req g u db).2.nextCheckoutId = db.nextCheckoutId + 1 := by
  unfold checkout_item
  simp only [hf]
  rw [if_neg hq]
  exact ⟨by simp [checkoutTxn], by simp [checkoutTxn]⟩

theorem return_item_success_ids (db : DB) (cid g u : Int) (c : CheckoutRow)
    (hc : db.checkouts.find? (fun x => x.id == cid && x.guild_id == g &&
      x.returned_at == none && db.items.any (fun i => i.id == x.item_id)) = some c) :
    (return_item cid g u db).2.nextItemId = db.nextItemId
    ∧ (return_item cid g u db).2.nextCheckoutId = db.nextCheckoutId := by
  unfold return_item
  simp only [hc]
  exact ⟨by simp, by simp⟩

theorem add_item_preserves_inv (req : CreateItemRequest) (g a : Int) (db : DB)
    (hq : 0 < req.quantity) (hinv : LedgerInv db) :
    LedgerInv (add_item req g a db).2 := by
  obtain ⟨hif, hcf, hcif, hind, hcnd, hcp, hcg, hbal⟩ := hinv
  obtain ⟨hit, hco, hni, hnc⟩ := add_item_snd_components req g a db
  have hfid : (add_item req g a db).1.id = db.nextItemId := rfl
  have hfqa : (add_item req g a db).1.quantity_available = req.quantity := rfl
  have hfqt : (add_item req g a db).1.quantity_total = req.quantity := rfl
  refine ⟨?_, ?_, ?_, ?_, ?_, ?_, ?_, ?_⟩
  · intro i hi
    rw [hit] at hi
    rw [hni]
    rcases List.mem_append.mp hi with h | h
    · exact lt_trans (hif i h) (lt_add_one _)
    · rw [List.mem_singleton.mp h, hfid]
      exact lt_add_one _
  · intro c hcm
    rw [hco] at hcm
    rw [hnc]
    exact hcf c hcm
  · intro c hcm
    rw [hco] at hcm
    rw [hni]
    exact lt_trans (hcif c hcm) (lt_add_one _)
  · rw [hit, List.map_append, List.nodup_append]
    refine ⟨hind, List.nodup_singleton _, ?_⟩
    intro x hx hx2
    obtain ⟨i, hi, rfl⟩ := List.mem_map.mp hx
    rw [List.map_singleton, List.mem_singleton, hfid] at hx2
    have := hif i hi
    omega
  · rw [hco]
    exact hcnd
  · intro c hcm
    rw [hco] at hcm
    exact hcp c hcm
  · intro c hcm i hi hid2
    rw [hco] at hcm
    rw [hit] at hi
    rcases List.mem_append.mp hi with h | h
    · exact hcg c hcm i h hid2
    · exfalso
      have h1 := hcif c hcm
      have h2 : i.id = db.nextItemId := by rw [List.mem_singleton.mp h, hfid]
      omega
  · intro i hi
    rw [hit] at hi
    have hact' : activeQty (add_item req g a db).2 i.id = activeQtyL db.checkouts i.id := by
      unfold activeQty
      rw [hco]
    rcases List.mem_append.mp hi with h | h
    · have hb := hbal i h
      unfold activeQty at hb
      rw [hact']
      exact hb
    · have hieq := List.mem_singleton.mp h
      subst hieq
      constructor
      · rw [hfqa]
        exact hq.le
      · rw [hact', hfid, hfqa, hfqt]
        have hzero : activeQtyL db.checkouts db.nextItemId = 0 := by
          apply activeQtyL_eq_zero
          intro cc hcc
          have := hcif cc hcc
          omega
        rw [hzero]
        ring

theorem checkout_item_preserves_inv (req : CheckoutRequest) (g u : Int) (db : DB)
    (hq : 0 < req.quantity) (hinv : LedgerInv db) :
    LedgerInv (checkout_item req g u db).2 := by
  rcases hf : db.items.find? (fun i => i.id == req.item_id && i.guild_id == g)
    with _ | i0
  · have heq : checkout_item req g u db = (none, db) := by
      unfold checkout_item
      rw [hf]
    rw [heq]
    exact hinv
  · by_cases hlt : i0.quantity_available < req.quantity
    · have heq : checkout_item req g u db = (none, db) := by
        unfold checkout_item
        simp only [hf]
        rw [if_pos hlt]
      rw [heq]
      exact hinv
    · obtain ⟨hif, hcf, hcif, hind, hcnd, hcp, hcg, hbal⟩ := hinv
      have hp := List.find?_some hf
      simp only [Bool.and_eq_true, beq_iff_eq] at hp
      have hmem0 := List.mem_of_find?_eq_some hf
      obtain ⟨hit, hcko, _⟩ := checkout_item_success_snd db req g u i0 hf hlt
      obtain ⟨hni, hnc⟩ := checkout_item_success_ids db req g u i0 hf hlt
      have hphi_id : ∀ r : ItemRow, ((if r.id == req.item_id then
          { r with quantity_available := r.quantity_available - req.quantity }
        else r) : ItemRow).id = r.id := by
        intro r
        by_cases h : (r.id == req.item_id) = true <;> simp [h]
      have hphi_guild : ∀ r : ItemRow, ((if r.id == req.item_id then
          { r with quantity_available := r.quantity_available - req.quantity }
        else r) : ItemRow).guild_id = r.guild_id := by
        intro r
        by_cases h : (r.id == req.item_id) = true <;> simp [h]
      have hphi_total : ∀ r : ItemRow, ((if r.id == req.item_id then
          { r with quantity_available := r.quantity_available - req.quantity }
        else r) : ItemRow).quantity_total = r.quantity_total := by
        intro r
        by_cases h : (r.id == req.item_id) = true <;> simp [h]
      refine ⟨?_, ?_, ?_, ?_, ?_, ?_, ?_, ?_⟩
      · intro i' hi'
        rw [hit] at hi'
        obtain ⟨r, hr, rfl⟩ := List.mem_map.mp hi'
        rw [hphi_id r, hni]
        exact hif r hr
      · intro cc hcm
        rw [hcko] at hcm
        rw [hnc]
        rcases List.mem_append.mp hcm with h | h
        · exact lt_trans (hcf cc h) (lt_add_one _)
        · rw [List.mem_singleton.mp h]
          exact lt_add_one _
      · intro cc hcm
        rw [hcko] at hcm
        rw [hni]
        rcases List.mem_append.mp hcm with h | h
        · exact hcif cc h
        · rw [List.mem_singleton.mp h]
          have h1 := hif i0 hmem0
          have h2 := hp.1
          show req.item_id < db.nextItemId
          omega
      · rw [hit, List.map_map]
        have hcong : db.items.map ((fun i => i.id) ∘ (fun r =>
            if r.id == req.item_id then
              { r with quantity_available := r.quantity_available - req.quantity }
            else r)) = db.items.map (fun i => i.id) :=
          List.map_congr_left (fun r _ => hphi_id r)
        rw [hcong]
        exact hind
      · rw [hcko, List.map_append, List.nodup_append]
        refine ⟨hcnd, List.nodup_singleton _, ?_⟩
        intro x hx hx2
        obtain ⟨cc, hcm, rfl⟩ := List.mem_map.mp hx
        rw [List.map_singleton, List.mem_singleton] at hx2
        have := hcf cc hcm
        have hx2' : cc.id = db.nextCheckoutId := hx2
        omega
      · intro cc hcm
        rw [hcko] at hcm
        rcases List.mem_append.mp hcm with h | h
        · exact hcp cc h
        · rw [List.mem_singleton.mp h]
          exact hq
      · intro cc hcm i' hi' hid2
        rw [hcko] at hcm
        rw [hit] at hi'
        obtain ⟨r, hr, rfl⟩ := List.mem_map.mp hi'
        rw [hphi_id r] at hid2
        rw [hphi_guild r]
        rcases List.mem_append.mp hcm with h | h
        · exact hcg cc h r hr hid2
        · have hcc := List.mem_singleton.mp h
          subst hcc
          have hrid : r.id = i0.id := by
            rw [hid2, hp.1]
          have hri0 : r = i0 := List.inj_on_of_nodup_map hind hr hmem0 hrid
          rw [hri0, hp.2]
      · intro i' hi'
        rw [hit] at hi'
        obtain ⟨r, hr, rfl⟩ := List.mem_map.mp hi'
        have hbr := hbal r hr
        have hact' : activeQty (checkout_item req g u db).2
            ((if r.id == req.item_id then
              { r with quantity_available := r.quantity_available - req.quantity }
            else r) : ItemRow).id
            = activeQtyL db.checkouts r.id
              + (if req.item_id = r.id then req.quantity else 0) := by
          unfold activeQty
          rw [hcko, hphi_id r, activeQtyL_append, activeQtyL_singleton _ _ rfl]
        rw [hact']
        unfold activeQty at hbr
        by_cases hcase : (r.id == req.item_id) = true
        · have hre : r.id = req.item_id := by simpa using hcase
          have hri0 : r = i0 := by
            refine List.inj_on_of_nodup_map hind hr hmem0 ?_
            rw [hre, hp.1]
          rw [if_pos hcase]
          have hge : req.quantity ≤ r.quantity_available := by
            rw [hri0]
            omega
          constructor
          · show 0 ≤ r.quantity_available - req.quantity
            omega
          · show r.quantity_available - req.quantity
              + (activeQtyL db.checkouts r.id
                + (if req.item_id = r.id then req.quantity else 0))
              = r.quantity_total
            rw [if_pos hre.symm]
            omega
        · rw [if_neg hcase]
          have hne : ¬ req.item_id = r.id := by
            intro h
            exact hcase (by simp [h.symm])
          rw [if_neg hne]
          constructor
          · omega
          · omega

theorem return_item_preserves_inv (cid g u : Int) (db : DB)
    (hinv : LedgerInv db) : LedgerInv (return_item cid g u db).2 := by
  rcases hfc : db.checkouts.find? (fun x => x.id == cid && x.guild_id == g &&
      x.returned_at == none && db.items.any (fun i => i.id == x.item_id))
    with _ | c
  · have heq : return_item cid g u db = (false, db) := by
      unfold return_item
      rw [hfc]
    rw [heq]
    exact hinv
  · obtain ⟨hif, hcf, hcif, hind, hcnd, hcp, hcg, hbal⟩ := hinv
    have hp := List.find?_some hfc
    simp only [Bool.and_eq_true, beq_iff_eq] at hp
    obtain ⟨⟨⟨h1, h2⟩, h3⟩, _⟩ := hp
    have hcmem := List.mem_of_find?_eq_some hfc
    obtain ⟨_, hcko, hit, _⟩ := return_item_success_snd db cid g u c hfc
    obtain ⟨hni, hnc⟩ := return_item_success_ids db cid g u c hfc
    have hpsi_id : ∀ x : CheckoutRow, ((if x.id == cid && x.guild_id == g then
        { x with returned_at := some db.now } else x) : CheckoutRow).id = x.id := by
      intro x
      by_cases h : (x.id == cid && x.guild_id == g) = true <;> simp [h]
    have hpsi_item : ∀ x : CheckoutRow, ((if x.id == cid && x.guild_id == g then
        { x with returned_at := some db.now } else x) : CheckoutRow).item_id = x.item_id := by
      intro x
      by_cases h : (x.id == cid && x.guild_id == g) = true <;> simp [h]
    have hpsi_guild : ∀ x : CheckoutRow, ((if x.id == cid && x.guild_id == g then
        { x with returned_at := some db.now } else x) : CheckoutRow).guild_id = x.guild_id := by
      intro x
      by_cases h : (x.id == cid && x.guild_id == g) = true <;> simp [h]
    have hpsi_qty : ∀ x : CheckoutRow, ((if x.id == cid && x.guild_id == g then
        { x with returned_at := some db.now } else x) : CheckoutRow).quantity = x.quantity := by
      intro x
      by_cases h : (x.id == cid && x.guild_id == g) = true <;> simp [h]
    have hchi_id : ∀ i : ItemRow, ((if i.id == c.item_id && i.guild_id == g then
        { i with quantity_available := i.quantity_available + c.quantity }
      else i) : ItemRow).id = i.id := by
      intro i
      by_cases h : (i.id == c.item_id && i.guild_id == g) = true <;> simp [h]
    have hchi_guild : ∀ i : ItemRow, ((if i.id == c.item_id && i.guild_id == g then
        { i with quantity_available := i.quantity_available + c.quantity }
      else i) : ItemRow).guild_id = i.guild_id := by
      intro i
      by_cases h : (i.id == c.item_id && i.guild_id == g) = true <;> simp [h]
    have hchi_total : ∀ i : ItemRow, ((if i.id == c.item_id && i.guild_id == g then
        { i with quantity_available := i.quantity_available + c.quantity }
      else i) : ItemRow).quantity_total = i.quantity_total := by
      intro i
      by_cases h : (i.id == c.item_id && i.guild_id == g) = true <;> simp [h]
    refine ⟨?_, ?_, ?_, ?_, ?_, ?_, ?_, ?_⟩
    · intro i' hi'
      rw [hit] at hi'
      obtain ⟨i, hi, rfl⟩ := List.mem_map.mp hi'
      rw [hchi_id i, hni]
      exact hif i hi
    · intro cc hcm
      rw [hcko] at hcm
      obtain ⟨x, hx, rfl⟩ := List.mem_map.mp hcm
      rw [hpsi_id x, hnc]
      exact hcf x hx
    · intro cc hcm
      rw [hcko] at hcm
      obtain ⟨x, hx, rfl⟩ := List.mem_map.mp hcm
      rw [hpsi_item x, hni]
      exact hcif x hx
    · rw [hit, List.map_map]
      have hcong : db.items.map ((fun i => i.id) ∘ (fun i =>
          if i.id == c.item_id && i.guild_id == g then
            { i with quantity_available := i.quantity_available + c.quantity }
          else i)) = db.items.map (fun i => i.id) :=
        List.map_congr_left (fun i _ => hchi_id i)
      rw [hcong]
      exact hind
    · rw [hcko, List.map_map]
      have hcong : db.checkouts.map ((fun x => x.id) ∘ (fun x =>
          if x.id == cid && x.guild_id == g then { x with returned_at := some db.now }
          else x)) = db.checkouts.map (fun x => x.id) :=
        List.map_congr_left (fun x _ => hpsi_id x)
      rw [hcong]
      exact hcnd
    · intro cc hcm
      rw [hcko] at hcm
      obtain ⟨x, hx, rfl⟩ := List.mem_map.mp hcm
      rw [hpsi_qty x]
      exact hcp x hx
    · intro cc hcm i' hi' hid2
      rw [hcko] at hcm
      rw [hit] at hi'
      obtain ⟨x, hx, rfl⟩ := List.mem_map.mp hcm
      obtain ⟨i, hi, rfl⟩ := List.mem_map.mp hi'
      rw [hpsi_item x] at hid2
      rw [hchi_id i] at hid2
      rw [hchi_guild i, hpsi_guild x]
      exact hcg x hx i hi hid2
    · intro i' hi'
      rw [hit] at hi'
      obtain ⟨i, hi, rfl⟩ := List.mem_map.mp hi'
      have hbr := hbal i hi
      unfold activeQty at hbr
      have hact' : activeQty (return_item cid g u db).2
          ((if i.id == c.item_id && i.guild_id == g then
            { i with quantity_available := i.quantity_available + c.quantity }
          else i) : ItemRow).id
          = activeQtyL db.checkouts i.id
            - (if c.item_id = i.id then c.quantity else 0) := by
        unfold activeQty
        rw [hcko, hchi_id i]
        exact activeQtyL_return_map db.checkouts cid g db.now c hcmem h1 h2 h3 hcnd i.id
      rw [hact']
      by_cases hcase : (i.id == c.item_id && i.guild_id == g) = true
      · have hprop : i.id = c.item_id ∧ i.guild_id = g := by simpa using hcase
        rw [if_pos hcase]
        have hpos := hcp c hcmem
        have hcontrib : (if c.item_id = i.id then c.quantity else 0) = c.quantity := by
          rw [if_pos hprop.1.symm]
        constructor
        · show 0 ≤ i.quantity_available + c.quantity
          omega
        · show i.quantity_available + c.quantity
            + (activeQtyL db.checkouts i.id
              - (if c.item_id = i.id then c.quantity else 0))
            = i.quantity_total
          rw [hcontrib]
          omega
      · rw [if_neg hcase]
        have hcontrib : (if c.item_id = i.id then c.quantity else 0) = 0 := by
          rw [if_neg]
          intro h
          apply hcase
          have hg2 : i.guild_id = g := by
            rw [hcg c hcmem i hi h.symm, h2]
          simp [h.symm, hg2]
        rw [hcontrib]
        constructor
        · omega
        · omega

/-- C2 amended: the invariant `0 ≤ quantity_available ≤ quantity_total` is
preserved by `add_item` (validated request, `quantity > 0`), by
`checkout_item` (the guard re-checks availability under lock), and by
`return_item` (which restores exactly the checked-out quantity) — stated via
the conservation invariant `LedgerInv` (`quantity_available` + active
checkout quantity = `quantity_total`, under the primary keys), which each of
the three operations preserves and which implies the bound.  It is **not**
enforced on the `update_item` write path: lowering `quantity_total` below
`quantity_available` commits an invariant-violating row (see the
counterexample), the pydantic read-validator only raising afterwards. -/
theorem quantity_invariant_amended :
    (∀ (db : DB) (req : CreateItemRequest) (g a : Int),
      LedgerInv db → 0 < req.quantity → LedgerInv (add_item req g a db).2)
    ∧ (∀ (db : DB) (req : CheckoutRequest) (g u : Int),
      LedgerInv db → 0 < req.quantity → LedgerInv (checkout_item req g u db).2)
    ∧ (∀ (db : DB) (cid g u : Int),
      LedgerInv db → LedgerInv (return_item cid g u db).2)
    ∧ (∀ db : DB, LedgerInv db → ∀ i ∈ db.items,
        0 ≤ i.quantity_available ∧ i.quantity_available ≤ i.quantity_total) := by
  refine ⟨fun db req g a hinv hq => add_item_preserves_inv req g a db hq hinv,
    fun db req g u hinv hq => checkout_item_preserves_inv req g u db hq hinv,
    fun db cid g u hinv => return_item_preserves_inv cid g u db hinv, ?_⟩
  intro db hinv i hi
  obtain ⟨hb1, hb2⟩ := hinv.balance i hi
  have hnn := activeQtyL_nonneg db.checkouts i.id hinv.checkout_pos
  unfold activeQty at hb2
  exact ⟨hb1, by omega⟩

/-- Witness for the amended C2: the scenario store satisfies `LedgerInv` and
checking the Widget out preserves it. -/
theorem quantity_invariant_amended_witness :
    LedgerInv (checkout_item co3 1 12 dbA).2 :=
  quantity_invariant_amended.2.1 dbA co3 1 12 (by constructor <;> decide) (by decide)

/-! ## C6: strict guild partitioning of reads and writes -/

theorem filter_append_single {α : Type} (l : List α) (x : α) (p : α → Bool)
    (hx : p x = false) : (l ++ [x]).filter p = l.filter p := by
  rw [List.filter_append]
  simp [List.filter_cons, hx]

theorem filter_map_eq_filter {α : Type} : ∀ (l : List α) (p : α → Bool) (φ : α → α),
    (∀ x ∈ l, p x = true → φ x = x) → (∀ x ∈ l, p (φ x) = p x) →
    (l.map φ).filter p = l.filter p := by
  intro l p φ
  induction l with
  | nil => intro _ _; rfl
  | cons a t ih =>
    intro h1 h2
    rw [List.map_cons, List.filter_cons, List.filter_cons]
    have ha2 := h2 a (List.mem_cons_self a t)
    rw [ha2]
    have iht := ih (fun x hx => h1 x (List.mem_cons_of_mem a hx))
      (fun x hx => h2 x (List.mem_cons_of_mem a hx))
    by_cases hpa : p a = true
    · rw [if_pos hpa, if_pos hpa, h1 a (List.mem_cons_self a t) hpa, iht]
    · rw [if_neg hpa, if_neg hpa, iht]

theorem search_items_guild (g : Int) (s : Option String) (st : Option Subteam)
    (loc : Option String) (db : DB) :
    ∀ i ∈ search_items g s st loc db, i.guild_id = g ∧ i ∈ db.items := by
  intro i hi
  unfold search_items at hi
  rw [List.mem_mergeSort] at hi
  refine ⟨?_, List.mem_of_mem_filter hi⟩
  have hp := List.of_mem_filter hi
  simp only [Bool.and_eq_true, beq_iff_eq] at hp
  exact hp.1.1.1

theorem get_active_checkouts_guild (g : Int) (uid : Option Int) (db : DB) :
    ∀ c ∈ get_active_checkouts g uid db, c.guild_id = g ∧ c ∈ db.checkouts := by
  intro c hc
  rcases uid with _ | u0
  · simp only [get_active_checkouts] at hc
    rw [List.mem_mergeSort] at hc
    have hp := List.of_mem_filter hc
    simp only [Bool.and_eq_true, beq_iff_eq] at hp
    exact ⟨hp.1, List.mem_of_mem_filter hc⟩
  · simp only [get_active_checkouts] at hc
    rw [List.mem_mergeSort] at hc
    have hp := List.of_mem_filter hc
    simp only [Bool.and_eq_true, beq_iff_eq] at hp
    exact ⟨hp.1.1, List.mem_of_mem_filter hc⟩

theorem get_item_checkouts_guild (g iid : Int) (ao : Bool) (db : DB) :
    ∀ c ∈ get_item_checkouts g iid ao db, c.guild_id = g ∧ c ∈ db.checkouts := by
  intro c hc
  cases ao
  · rw [show get_item_checkouts g iid false db =
        (db.checkouts.filter (fun c => c.item_id == iid
          && c.guild_id == g)).mergeSort
          (fun a b => b.checked_out_at ≤ a.checked_out_at) from rfl,
      List.mem_mergeSort] at hc
    have hp := List.of_mem_filter hc
    simp only [Bool.and_eq_true, beq_iff_eq] at hp
    exact ⟨hp.2, List.mem_of_mem_filter hc⟩
  · rw [show get_item_checkouts g iid true db =
        (db.checkouts.filter (fun c => c.item_id == iid && c.guild_id == g
          && c.returned_at == none)).mergeSort
          (fun a b => b.checked_out_at ≤ a.checked_out_at) from rfl,
      List.mem_mergeSort] at hc
    have hp := List.of_mem_filter hc
    simp only [Bool.and_eq_true, beq_iff_eq] at hp
    exact ⟨hp.1.2, List.mem_of_mem_filter hc⟩

theorem get_audit_log_guild (g : Int) (lim : Nat) (db : DB) :
    ∀ e ∈ get_audit_log g lim db, e.guild_id = g ∧ e ∈ db.auditLog := by
  intro e he
  unfold get_audit_log at he
  have he2 := List.take_subset lim _ he
  rw [List.mem_mergeSort] at he2
  refine ⟨?_, List.mem_of_mem_filter he2⟩
  have hp := List.of_mem_filter he2
  simpa using hp

theorem get_user_permissions_guild (g uid : Int) (db : DB) (p : PermRow)
    (h : get_user_permissions g uid db = some p) :
    p.guild_id = g ∧ p ∈ db.guildPermissions := by
  have hmem := List.mem_of_find?_eq_some h
  have hp := List.find?_some h
  simp only [Bool.and_eq_true, beq_iff_eq] at hp
  exact ⟨hp.2, hmem⟩

theorem get_guild_admins_guild (g : Int) (db : DB) :
    ∀ p ∈ get_guild_admins g db, p.guild_id = g ∧ p ∈ db.guildPermissions := by
  intro p hp
  unfold get_guild_admins at hp
  rw [List.mem_mergeSort] at hp
  refine ⟨?_, List.mem_of_mem_filter hp⟩
  have hpr := List.of_mem_filter hp
  simp only [Bool.and_eq_true, beq_iff_eq] at hpr
  exact hpr.1.1

theorem add_item_isolated (req : CreateItemRequest) (g a : Int) (db : DB) :
    OutsideUntouched g db (add_item req g a db).2 := by
  obtain ⟨hit, hco, _, _⟩ := add_item_snd_components req g a db
  have haud : (add_item req g a db).2.auditLog = db.auditLog ++
      [{ id := db.nextAuditId, guild_id := g, user_id := a, action := "add_item",
         item_id := some db.nextItemId,
         details := "Added " ++ toString req.quantity ++ "x " ++ req.item_name,
         created_at := db.now }] := by
    simp [add_item]
  have hperm : (add_item req g a db).2.guildPermissions = db.guildPermissions := by
    simp [add_item]
  refine ⟨?_, ?_, ?_, ?_⟩
  · unfold itemsOutside
    rw [hit]
    apply filter_append_single
    simp [add_item]
  · unfold checkoutsOutside
    rw [hco]
  · unfold auditOutside
    rw [haud]
    apply filter_append_single
    simp
  · unfold permsOutside
    rw [hperm]

theorem update_item_isolated (g iid u : Int) (r : UpdateItemRequest) (db : DB) :
    OutsideUntouched g db (update_item g iid r u db).2 := by
  by_cases he : r.isEmpty = true
  · have heq : update_item g iid r u db = (.ok (get_item g iid db), db) := by
      unfold update_item
      rw [if_pos he]
    rw [heq]
    exact ⟨rfl, rfl, rfl, rfl⟩
  · rcases hf : db.items.find? (fun i => i.id == iid && i.guild_id == g) with _ | i0
    · have heq : update_item g iid r u db = (.ok none, db) := by
        unfold update_item
        rw [if_neg he, hf]
      rw [heq]
      exact ⟨rfl, rfl, rfl, rfl⟩
    · have hitems : (update_item g iid r u db).2.items = db.items.map (fun x =>
          if x.id == iid && x.guild_id == g then applyUpdates r x else x) := by
        unfold update_item
        rw [if_neg he]
        simp only [hf]
        by_cases hok : itemRecordOk (applyUpdates r i0) = true
        · rw [if_pos hok]
          simp
        · rw [if_neg hok]
      have hco : (update_item g iid r u db).2.checkouts = db.checkouts := by
        unfold update_item
        rw [if_neg he]
        simp only [hf]
        by_cases hok : itemRecordOk (applyUpdates r i0) = true
        · rw [if_pos hok]
          simp
        · rw [if_neg hok]
      have hpe : (update_item g iid r u db).2.guildPermissions = db.guildPermissions := by
        unfold update_item
        rw [if_neg he]
        simp only [hf]
        by_cases hok : itemRecordOk (applyUpdates r i0) = true
        · rw [if_pos hok]
          simp
        · rw [if_neg hok]
      have hau : (update_item g iid r u db).2.auditLog = db.auditLog
          ∨ (update_item g iid r u db).2.auditLog = db.auditLog ++
            [{ id := db.nextAuditId, guild_id := g, user_id := u,
               action := "edit_item", item_id := some iid,
               details := "Updated: " ++ updateChanges r,
               created_at := db.now }] := by
        unfold update_item
        rw [if_neg he]
        simp only [hf]
        by_cases hok : itemRecordOk (applyUpdates r i0) = true
        · rw [if_pos hok]
          right
          simp
        · rw [if_neg hok]
          left
          rfl
      refine ⟨?_, ?_, ?_, ?_⟩
      · unfold itemsOutside
        rw [hitems]
        apply filter_map_eq_filter
        · intro x _ hpx
          rw [if_neg]
          intro hcond
          simp only [Bool.and_eq_true, beq_iff_eq] at hcond
          simp [hcond.2] at hpx
        · intro x _
          by_cases hc : (x.id == iid && x.guild_id == g) = true
          · rw [if_pos hc]
            simp [applyUpdates]
          · rw [if_neg hc]
      · unfold checkoutsOutside
        rw [hco]
      · unfold auditOutside
        rcases hau with h | h
        · rw [h]
        · rw [h]
          apply filter_append_single
          simp
      · unfold permsOutside
        rw [hpe]

theorem delete_item_isolated (g iid u : Int) (db : DB)
    (hnodup : (db.items.map (fun i => i.id)).Nodup) :
    OutsideUntouched g db (delete_item g iid u db).2 := by
  rcases hg : get_item g iid db with _ | item
  · have heq : delete_item g iid u db = (false, db) := by
      unfold delete_item
      rw [hg]
    rw [heq]
    exact ⟨rfl, rfl, rfl, rfl⟩
  · have hmem : item ∈ db.items := List.mem_of_find?_eq_some hg
    have hp := List.find?_some hg
    simp only [Bool.and_eq_true, beq_iff_eq] at hp
    have hit : (delete_item g iid u db).2.items =
        db.items.filter (fun x => !(x.id == iid)) := by
      unfold delete_item
      rw [hg]
      simp
    have hco : (delete_item g iid u db).2.checkouts = db.checkouts := by
      unfold delete_item
      rw [hg]
      simp
    have hpe : (delete_item g iid u db).2.guildPermissions = db.guildPermissions := by
      unfold delete_item
      rw [hg]
      simp
    have hau : (delete_item g iid u db).2.auditLog = db.auditLog ++
        [{ id := db.nextAuditId, guild_id := g, user_id := u,
           action := "delete_item", item_id := some iid,
           details := "Deleted " ++ item.item_name, created_at := db.now }] := by
      unfold delete_item
      rw [hg]
      simp
    refine ⟨?_, ?_, ?_, ?_⟩
    · unfold itemsOutside
      rw [hit, List.filter_filter]
      apply List.filter_congr
      intro x hx
      by_cases hpx : (!(x.guild_id == g)) = true
      · rw [hpx]
        have hxid : ¬ x.id = iid := by
          intro hxe
          have hxitem : x = item :=
            List.inj_on_of_nodup_map hnodup hx hmem (by rw [hxe, hp.1])
          rw [hxitem] at hpx
          simp [hp.2] at hpx
        simp [hxid]
      · have hpx2 : (!(x.guild_id == g)) = false := Bool.eq_false_iff.mpr hpx
        rw [hpx2]
        simp
    · unfold checkoutsOutside
      rw [hco]
    · unfold auditOutside
      rw [hau]
      apply filter_append_single
      simp
    · unfold permsOutside
      rw [hpe]

theorem checkout_item_isolated (req : CheckoutRequest) (g u : Int) (db : DB)
    (hnodup : (db.items.map (fun i => i.id)).Nodup) :
    OutsideUntouched g db (checkout_item req g u db).2 := by
  rcases hf : db.items.find? (fun i => i.id == req.item_id && i.guild_id == g)
    with _ | i0
  · have heq : checkout_item req g u db = (none, db) := by
      unfold checkout_item
      rw [hf]
    rw [heq]
    exact ⟨rfl, rfl, rfl, rfl⟩
  · by_cases hlt : i0.quantity_available < req.quantity
    · have heq : checkout_item req g u db = (none, db) := by
        unfold checkout_item
        simp only [hf]
        rw [if_pos hlt]
      rw [heq]
      exact ⟨rfl, rfl, rfl, rfl⟩
    · have hp := List.find?_some hf
      simp only [Bool.and_eq_true, beq_iff_eq] at hp
      have hmem0 := List.mem_of_find?_eq_some hf
      obtain ⟨hit, hcko, _⟩ := checkout_item_success_snd db req g u i0 hf hlt
      have hau : (checkout_item req g u db).2.auditLog = db.auditLog ++
          [{ id := db.nextAuditId, guild_id := g, user_id := u,
             action := "checkout", item_id := some req.item_id,
             details := "Checked out " ++ toString req.quantity ++ "x " ++ i0.item_name,
             created_at := db.now }] := by
        unfold checkout_item
        simp only [hf]
        rw [if_neg hlt]
        simp [checkoutTxn]
      have hpe : (checkout_item req g u db).2.guildPermissions = db.guildPermissions := by
        unfold checkout_item
        simp only [hf]
        rw [if_neg hlt]
        simp [checkoutTxn]
      refine ⟨?_, ?_, ?_, ?_⟩
      · unfold itemsOutside
        rw [hit]
        apply filter_map_eq_filter
        · intro x hx hpx
          rw [if_neg]
          intro hcond
          simp only [beq_iff_eq] at hcond
          have hxi0 : x = i0 :=
            List.inj_on_of_nodup_map hnodup hx hmem0 (by rw [hcond, hp.1])
          rw [hxi0] at hpx
          simp [hp.2] at hpx
        · intro x _
          by_cases hc : (x.id == req.item_id) = true
          · rw [if_pos hc]
          · rw [if_neg hc]
      · unfold checkoutsOutside
        rw [hcko]
        apply filter_append_single
        simp
      · unfold auditOutside
        rw [hau]
        apply filter_append_single
        simp
      · unfold permsOutside
        rw [hpe]

theorem return_item_isolated (cid g u : Int) (db : DB) :
    OutsideUntouched g db (return_item cid g u db).2 := by
  rcases hfc : db.checkouts.find? (fun x => x.id == cid && x.guild_id == g &&
      x.returned_at == none && db.items.any (fun i => i.id == x.item_id))
    with _ | c
  · have heq : return_item cid g u db = (false, db) := by
      unfold return_item
      rw [hfc]
    rw [heq]
    exact ⟨rfl, rfl, rfl, rfl⟩
  · obtain ⟨_, hcko, hit, hau⟩ := return_item_success_snd db cid g u c hfc
    have hpe : (return_item cid g u db).2.guildPermissions = db.guildPermissions := by
      unfold return_item
      simp only [hfc]
      simp
    refine ⟨?_, ?_, ?_, ?_⟩
    · unfold itemsOutside
      rw [hit]
      apply filter_map_eq_filter
      · intro x _ hpx
        rw [if_neg]
        intro hcond
        simp only [Bool.and_eq_true, beq_iff_eq] at hcond
        simp [hcond.2] at hpx
      · intro x _
        by_cases hc : (x.id == c.item_id && x.guild_id == g) = true
        · rw [if_pos hc]
        · rw [if_neg hc]
    · unfold checkoutsOutside
      rw [hcko]
      apply filter_map_eq_filter
      · intro x _ hpx
        rw [if_neg]
        intro hcond
        simp only [Bool.and_eq_true, beq_iff_eq] at hcond
        simp [hcond.2] at hpx
      · intro x _
        by_cases hc : (x.id == cid && x.guild_id == g) = true
        · rw [if_pos hc]
        · rw [if_neg hc]
    · unfold auditOutside
      rw [hau]
      apply filter_append_single
      simp
    · unfold permsOutside
      rw [hpe]

theorem ensure_guild_member_isolated (g uid : Int) (n : String) (db : DB) :
    OutsideUntouched g db (ensure_guild_member g uid n db) := by
  have hi : (ensure_guild_member g uid n db).items = db.items := by
    simp only [ensure_guild_member]
    split <;> simp
  have hc : (ensure_guild_member g uid n db).checkouts = db.checkouts := by
    simp only [ensure_guild_member]
    split <;> simp
  have ha : (ensure_guild_member g uid n db).auditLog = db.auditLog := by
    simp only [ensure_guild_member]
    split <;> simp
  have hpe : (ensure_guild_member g uid n db).guildPermissions = db.guildPermissions
      ∨ (ensure_guild_member g uid n db).guildPermissions = db.guildPermissions ++
        [{ guild_id := g, user_id := uid, is_admin := false,
           updated_at := (ensure_user_exists uid n db).now }] := by
    simp only [ensure_guild_member]
    split
    · left
      simp
    · right
      simp
  refine ⟨by unfold itemsOutside; rw [hi], by unfold checkoutsOutside; rw [hc],
    by unfold auditOutside; rw [ha], ?_⟩
  unfold permsOutside
  rcases hpe with h | h
  · rw [h]
  · rw [h]
    apply filter_append_single
    simp

theorem set_admin_isolated (g uid : Int) (b : Bool) (db : DB) :
    OutsideUntouched g db (set_admin g uid b db) := by
  have hi : (set_admin g uid b db).items = db.items := by
    unfold set_admin
    split <;> rfl
  have hc : (set_admin g uid b db).checkouts = db.checkouts := by
    unfold set_admin
    split <;> rfl
  have ha : (set_admin g uid b db).auditLog = db.auditLog := by
    unfold set_admin
    split <;> rfl
  have hpe : (set_admin g uid b db).guildPermissions =
      db.guildPermissions.map (fun p => if p.guild_id == g && p.user_id == uid then
        { p with is_admin := b, updated_at := db.now } else p)
      ∨ (set_admin g uid b db).guildPermissions = db.guildPermissions ++
        [{ guild_id := g, user_id := uid, is_admin := b, updated_at := db.now }] := by
    unfold set_admin
    split
    · left
      rfl
    · right
      rfl
  refine ⟨by unfold itemsOutside; rw [hi], by unfold checkoutsOutside; rw [hc],
    by unfold auditOutside; rw [ha], ?_⟩
  unfold permsOutside
  rcases hpe with h | h
  · rw [h]
    apply filter_map_eq_filter
    · intro x _ hpx
      rw [if_neg]
      intro hcond
      simp only [Bool.and_eq_true, beq_iff_eq] at hcond
      simp [hcond.1] at hpx
    · intro x _
      by_cases hcnd : (x.guild_id == g && x.user_id == uid) = true
      · rw [if_pos hcnd]
      · rw [if_neg hcnd]
  · rw [h]
    apply filter_append_single
    simp

/-- C6: strict guild partitioning across the whole ledger surface.  Every
read — `get_item`, `search_items`, `get_active_checkouts`,
`get_item_checkouts`, `get_audit_log`, `get_user_permissions`,
`get_guild_admins` — returns only rows of the requested guild, and every
write — `add_item`, `update_item`, `delete_item`, `checkout_item`,
`return_item`, `ensure_guild_member`, `set_admin` — leaves the other
guilds' items, checkouts, audit entries and permission rows exactly as they
were (for `delete_item` and `checkout_item` under the items primary key, no
two rows sharing an id, since their `DELETE`/decrement statements filter by
id alone).  In particular `checkout_item` for an item id that exists only
in another guild returns `null` and leaves the entire store — the item's
true guild included — unchanged. -/
theorem guild_isolation :
    (∀ (db : DB) (req : CheckoutRequest) (g u : Int),
      (∀ i ∈ db.items, i.id = req.item_id → i.guild_id ≠ g) →
      checkout_item req g u db = (none, db))
    ∧ (∀ (db : DB) (g iid : Int) (i : ItemRow),
      get_item g iid db = some i → i ∈ db.items ∧ i.guild_id = g ∧ i.id = iid)
    ∧ (∀ (db : DB) (g : Int) (s : Option String) (st : Option Subteam)
        (loc : Option String), ∀ i ∈ search_items g s st loc db,
        i.guild_id = g ∧ i ∈ db.items)
    ∧ (∀ (db : DB) (g : Int) (uid : Option Int),
        ∀ c ∈ get_active_checkouts g uid db, c.guild_id = g ∧ c ∈ db.checkouts)
    ∧ (∀ (db : DB) (g iid : Int) (ao : Bool),
        ∀ c ∈ get_item_checkouts g iid ao db, c.guild_id = g ∧ c ∈ db.checkouts)
    ∧ (∀ (db : DB) (g : Int) (lim : Nat),
        ∀ e ∈ get_audit_log g lim db, e.guild_id = g ∧ e ∈ db.auditLog)
    ∧ (∀ (db : DB) (g uid : Int) (p : PermRow),
        get_user_permissions g uid db = some p →
        p.guild_id = g ∧ p ∈ db.guildPermissions)
    ∧ (∀ (db : DB) (g : Int), ∀ p ∈ get_guild_admins g db,
        p.guild_id = g ∧ p ∈ db.guildPermissions)
    ∧ (∀ (db : DB) (req : CreateItemRequest) (g a : Int),
        OutsideUntouched g db (add_item req g a db).2)
    ∧ (∀ (db : DB) (g iid u : Int) (r : UpdateItemRequest),
        OutsideUntouched g db (update_item g iid r u db).2)
    ∧ (∀ (db : DB) (g iid u : Int), (db.items.map (fun i => i.id)).Nodup →
        OutsideUntouched g db (delete_item g iid u db).2)
    ∧ (∀ (db : DB) (req : CheckoutRequest) (g u : Int),
        (db.items.map (fun i => i.id)).Nodup →
        OutsideUntouched g db (checkout_item req g u db).2)
    ∧ (∀ (db : DB) (cid g u : Int),
        OutsideUntouched g db (return_item cid g u db).2)
    ∧ (∀ (db : DB) (g uid : Int) (n : String),
        OutsideUntouched g db (ensure_guild_member g uid n db))
    ∧ (∀ (db : DB) (g uid : Int) (b : Bool),
        OutsideUntouched g db (set_admin g uid b db)) := by
  refine ⟨?_, ?_,
    fun db g s st loc => search_items_guild g s st loc db,
    fun db g uid => get_active_checkouts_guild g uid db,
    fun db g iid ao => get_item_checkouts_guild g iid ao db,
    fun db g lim => get_audit_log_guild g lim db,
    fun db g uid p h => get_user_permissions_guild g uid db p h,
    fun db g => get_guild_admins_guild g db,
    fun db req g a => add_item_isolated req g a db,
    fun db g iid u r => update_item_isolated g iid u r db,
    fun db g iid u hnd => delete_item_isolated g iid u db hnd,
    fun db req g u hnd => checkout_item_isolated req g u db hnd,
    fun db cid g u => return_item_isolated cid g u db,
    fun db g uid n => ensure_guild_member_isolated g uid n db,
    fun db g uid b => set_admin_isolated g uid b db⟩
  · intro db req g u h
    unfold checkout_item
    have hf : db.items.find? (fun i => i.id == req.item_id && i.guild_id == g) = none := by
      refine List.find?_eq_none.mpr (fun x hx => ?_)
      simp only [Bool.and_eq_true, beq_iff_eq, not_and]
      exact fun h1 => h x hx h1
    rw [hf]
  · intro db g iid i hi
    have hmem := List.mem_of_find?_eq_some hi
    have hp := List.find?_some hi
    simp only [Bool.and_eq_true, beq_iff_eq] at hp
    exact ⟨hmem, hp.2, hp.1⟩

/-- Witness for C6: checking the guild-1 Widget out while passing guild 2
returns `null` and leaves the store untouched; deleting it through guild 2
leaves every other guild's slice intact. -/
theorem guild_isolation_witness :
    checkout_item co3 2 12 dbA = (none, dbA)
    ∧ OutsideUntouched 2 dbD (delete_item 2 1 99 dbD).2 :=
  ⟨guild_isolation.1 dbA co3 2 12 (by decide),
    guild_isolation.2.2.2.2.2.2.2.2.2.2.1 dbD 2 1 99 (by decide)⟩

end Pineventory
